import Mathlib

/-!
# capsh: the privilege-transition protocol of `progs/capsh.c`

A shallow embedding of `main` of `progs/capsh.c`.  The program is a linear
loop over its arguments; every directive is a fixed sequence of calls into
libcap and the kernel.  Those calls are not part of `capsh.c`; they are
modelled by their contract, and whether a fallible call succeeds is read from
an environment (`Env`), so that a statement quantified over every `Env`
covers every way the calls can turn out.

Every call is logged, together with the kernel state that holds right after
it, so that ordering properties can be stated on the log.  `cap_free` and `free`
only release memory; they change nothing the model holds and are not logged.

Two places of the program step outside a C object, and the model follows the
bytes there.  `argv[i]+7` and `argv[i]+6` on an argument shorter than that read
the string that lies behind it, so the arguments are kept as addresses into one
run of memory (`main_loop`, `offset`), in which `strtok` leaves its NULs.  The
`sprintf` of line 116 writes past the block of line 111; what that does to the
run is asked of the environment (`Overrun`).
-/

namespace Capsh

/-! ## Data model -/

/-- C strings (without the terminating NUL). -/
abbrev CStr := List Char

/-- The byte that ends a C string. -/
def NUL : Char := Char.ofNat 0

/-- A run of memory: bytes, among them the NULs that end the strings it holds. -/
abbrev Mem := List Char

/-- The three flag sets of a capability state, as sets of capability ids. -/
structure CapState where
  effective : Finset Nat
  permitted : Finset Nat
  inheritable : Finset Nat
deriving DecidableEq

/-- What the kernel holds for the process: its capability state, its bounding
set, the number of capability ids the kernel knows (`PR_CAPBSET_READ` answers
`-1` from there on) and the current root directory. -/
structure Kernel where
  caps : CapState
  bset : Finset Nat
  ncaps : Nat
  root : CStr
deriving DecidableEq

/-- Modelled from the spec: the id of the capability "change process capability
sets" (`CAP_SETPCAP`, used by `raise_setpcap`, capsh.c line 25).  The header that
gives the number is not among the sources; 8 is the value Linux uses. -/
def CAP_SETPCAP : Nat := 8

/-- Modelled from the spec: the id of the capability "change the root directory"
(`CAP_SYS_CHROOT`, used by `raise_chroot`, capsh.c line 26).  The header that
gives the number is not among the sources; 18 is the value Linux uses. -/
def CAP_SYS_CHROOT : Nat := 18

/-- An argument of a `printf`-style call: a string for `%s`, a number for `%u`. -/
inductive Arg where
  | str (s : CStr)
  | uint (n : Nat)
deriving DecidableEq

/-- The calls and outputs of the program that are observable from outside,
each with its arguments and its result.  Output is recorded as the format
string of the call and the arguments it is given. -/
inductive Event where
  | getProc (res : Option CapState)
  | dup (res : Option CapState)
  | setFlag (cap : Nat) (ok : Bool)
  | setProc (s : CapState) (ok : Bool)
  | bsetDrop (cap : Nat) (ok : Bool)
  | chroot (path : CStr) (ok : Bool)
  | fromName (name : CStr) (res : Option Nat)
  | toText (s : Option CapState) (res : Option CStr)
  | malloc (size : Nat) (ok : Bool)
  | sprintf (written : CStr)
  | fromText (text : CStr) (res : Option CapState)
  | execve (args : List CStr) (ok : Bool)
  | perror (msg : String)
  | stderr (fmt : String) (args : List Arg)
  | stdout (fmt : String) (args : List Arg)
deriving DecidableEq

/-- What a write past the end of a `malloc` block does to the rest of the run.
The C language leaves it undefined; the model tells three behaviours apart: the
extra bytes land in the slack of the allocator and nothing shows, the block is
read back as another text, or the allocator finds its bookkeeping damaged and
kills the process. -/
inductive Overrun where
  | harmless
  | garbled (read : CStr)
  | abort
deriving DecidableEq

/-- The part of the world the program does not control: whether each fallible
call succeeds and what a buffer overrun does (both asked by the number of calls
made so far), and the codec. -/
structure Env where
  getProcOk : Nat → Bool
  dupOk : Nat → Bool
  setFlagOk : Nat → Bool
  setProcOk : Nat → Bool
  bsetDropOk : Nat → Bool
  chrootOk : Nat → Bool
  mallocOk : Nat → Bool
  execveOk : Nat → Bool
  overrun : Nat → Overrun
  cap_from_name : CStr → Option Nat
  cap_to_name : Nat → Option CStr
  cap_to_text : CapState → Option CStr
  cap_from_text : CStr → Option CapState

/-- Kernel state, the number of calls made so far, and the log: every event
with the kernel state right after it, oldest first. -/
structure World where
  kernel : Kernel
  clock : Nat
  trace : List (Event × Kernel)

/-- How a directive, or the program, ends: control goes on to the next
argument, the process exits with a status, the process image is replaced, or
the process is killed by the allocator (`abort`). -/
inductive Outcome where
  | running
  | exited (status : Nat)
  | execed
  | aborted
deriving DecidableEq

/-- Record an event and the kernel state it leaves. -/
def World.emit (w : World) (e : Event) (k : Kernel) : World :=
  { kernel := k, clock := w.clock + 1, trace := w.trace ++ [(e, k)] }

/-- The events of the log alone. -/
def World.events (w : World) : List Event := w.trace.map Prod.fst

/-! ## libcap and kernel calls (by contract) -/

/-- Modelled from the spec: `get_current` (4.1), libcap's `cap_get_proc`, which is
not among the sources: a snapshot of the kernel-held state, or NULL. -/
def cap_get_proc (env : Env) (w : World) : Option CapState × World :=
  let r := if env.getProcOk w.clock then some w.kernel.caps else none
  (r, w.emit (.getProc r) w.kernel)

/-- Modelled from the spec: `duplicate` (4.1), libcap's `cap_dup`, which is not
among the sources: an independent copy, or NULL. -/
def cap_dup (env : Env) (s : CapState) (w : World) : Option CapState × World :=
  let r := if env.dupOk w.clock then some s else none
  (r, w.emit (.dup r) w.kernel)

/-- Modelled from the spec: `add_to_effective` (4.1), libcap's
`cap_set_flag(c, CAP_EFFECTIVE, 1, {cap}, CAP_SET)` on a snapshot that is not
NULL; the function is not among the sources.  It sets one Effective bit of the
snapshot in memory.  Returns the status and the snapshot after the call. -/
def cap_set_flag (env : Env) (s : CapState) (cap : Nat) (w : World) :
    Int × CapState × World :=
  if env.setFlagOk w.clock then
    (0, { s with effective := insert cap s.effective }, w.emit (.setFlag cap true) w.kernel)
  else (-1, s, w.emit (.setFlag cap false) w.kernel)

/-- Modelled from the spec: `cap_set_flag(NULL, CAP_EFFECTIVE, 1, {cap}, CAP_SET)`:
there is no snapshot to change, the call is refused. -/
def cap_set_flag_null (cap : Nat) (w : World) : Int × World :=
  (-1, w.emit (.setFlag cap false) w.kernel)

/-- Modelled from the spec: `install` (4.1), libcap's `cap_set_proc`, which is not
among the sources: replaces the kernel-held state; on failure the kernel-held
state is unchanged. -/
def cap_set_proc (env : Env) (s : CapState) (w : World) : Int × World :=
  if env.setProcOk w.clock then
    (0, w.emit (.setProc s true) { w.kernel with caps := s })
  else (-1, w.emit (.setProc s false) w.kernel)

/-- Modelled from the spec: the kernel bounding-set-drop call
`prctl(PR_CAPBSET_DROP, cap)` (4.2 step 3c): removes the id from the bounding
set (a no-op when it is absent); on failure nothing changes. -/
def prctl_capbset_drop (env : Env) (cap : Nat) (w : World) : Int × World :=
  if env.bsetDropOk w.clock then
    (0, w.emit (.bsetDrop cap true) { w.kernel with bset := w.kernel.bset.erase cap })
  else (-1, w.emit (.bsetDrop cap false) w.kernel)

/-- Modelled from the spec: the bounding-set query `prctl(PR_CAPBSET_READ, cap)`
(4.5): 1 or 0 for membership, `-1` for "no such capability id". -/
def prctl_capbset_read (k : Kernel) (cap : Nat) : Int :=
  if cap < k.ncaps then (if cap ∈ k.bset then 1 else 0) else -1

/-- Modelled from the spec: the filesystem root change `chroot(path)` (4.4 step
5); it does not touch capability state. -/
def chroot (env : Env) (path : CStr) (w : World) : Int × World :=
  if env.chrootOk w.clock then
    (0, w.emit (.chroot path true) { w.kernel with root := path })
  else (-1, w.emit (.chroot path false) w.kernel)

/-! ## String helpers of the C library -/

/-- Fields of `s` between occurrences of the delimiter `d` (empty fields kept). -/
def fields (d : Char) : CStr → List CStr
  | [] => [[]]
  | c :: cs =>
    if c = d then [] :: fields d cs
    else match fields d cs with
      | [] => [[c]]
      | f :: fs => (c :: f) :: fs

/-- The tokens that `strtok(ptr, ",")` followed by `strtok(NULL, ",")` calls
hand out, in order: the maximal non-empty runs of non-comma characters. -/
def strtok_all (s : CStr) : List CStr := (fields ',' s).filter (fun t => t ≠ [])

/-- The test `!memcmp(lit, arg, n)` for a literal of at least `n` characters
and a NUL-terminated `arg`: the first `n` bytes agree.  An `arg` shorter than
`n` differs from the literal at its terminating NUL at the latest. -/
def memcmp_eq (lit : String) (arg : CStr) (n : Nat) : Bool :=
  lit.toList.take n == arg.take n

/-- The test `!strcmp(lit, arg)`. -/
def strcmp_eq (lit : String) (arg : CStr) : Bool := lit.toList == arg

/-- The C string that starts at byte `p` of a run of memory: the bytes up to the
next NUL.  Past the end of the run the memory reads as zero bytes. -/
def cstr (m : Mem) (p : Nat) : CStr := (m.drop p).takeWhile (fun c => c != NUL)

/-- The string `argv[i] + n`, for the argument `arg` and the memory `tail` that
follows its terminating NUL.  For an argument shorter than `n` the C expression
points past the terminator, into whatever string lies there: the next argument,
or an environment string. -/
def offset (arg : CStr) (tail : Mem) (n : Nat) : CStr :=
  if n ≤ arg.length then arg.drop n else cstr tail (n - (arg.length + 1))

/-- Strings laid out in memory one after the other, each with its NUL. -/
def layout : List CStr → Mem
  | [] => []
  | s :: ss => s ++ NUL :: layout ss

/-- The addresses of strings laid out from address `p` on. -/
def pointers : List CStr → Nat → List Nat
  | [], _ => []
  | s :: ss, p => p :: pointers ss (p + s.length + 1)

/-- What the calls of `strtok(·, ",")` of a completed `--drop` loop leave of the
string they walked: every comma that ends a token is overwritten by a NUL
(`tok` says whether the character before was part of a token). -/
def strtok_marks (tok : Bool) : CStr → CStr
  | [] => []
  | c :: cs =>
    if c = ',' then (if tok then NUL else ',') :: strtok_marks false cs
    else c :: strtok_marks true cs

/-- The memory after a completed `--drop` loop has tokenised the string at
address `q`. -/
def strtok_mem (m : Mem) (q : Nat) : Mem :=
  m.take q ++ strtok_marks false (cstr m q) ++ m.drop (q + (cstr m q).length)

/-! ## The `--drop` directive (capsh.c lines 33-86) -/

/-- Lines 60-83: the loop over the tokens of `argv[i]+7`. -/
def drop_loop (env : Env) (orig raised_for_setpcap : CapState) :
    List CStr → World → World × Outcome
  | [], w => (w, .running)
  | ptr :: rest, w =>
    match env.cap_from_name ptr with
    | none =>
      let w := w.emit (.fromName ptr none) w.kernel
      (w.emit (.stderr "capability [%s] is unknown to libcap\n" [.str ptr]) w.kernel,
        .exited 1)
    | some cap =>
      let w := w.emit (.fromName ptr (some cap)) w.kernel
      let (r1, w) := cap_set_proc env raised_for_setpcap w
      if r1 ≠ 0 then
        (w.emit (.perror "unable to raise CAP_SETPCAP for BSET changes") w.kernel,
          .exited 1)
      else
        let (status, w) := prctl_capbset_drop env cap w
        let (r2, w) := cap_set_proc env orig w
        if r2 ≠ 0 then
          (w.emit (.perror "unable to lower CAP_SETPCAP post BSET change") w.kernel,
            .exited 1)
        else if status ≠ 0 then
          (w.emit (.stderr "failed to drop [%s=%u]\n" [.str ptr, .uint cap]) w.kernel,
            .exited 1)
        else drop_loop env orig raised_for_setpcap rest w

/-- Lines 34-86: the body of the `--drop` branch for the argument `arg`, followed
in memory by `tail`. -/
def drop_directive (env : Env) (arg : CStr) (tail : Mem) (w : World) : World × Outcome :=
  match cap_get_proc env w with
  | (none, w) => (w.emit (.perror "Capabilities not available") w.kernel, .exited 1)
  | (some orig, w) =>
    match cap_dup env orig w with
    | (none, w) =>
      (w.emit (.stderr "BSET modification requires CAP_SETPCAP\n" []) w.kernel, .exited 1)
    | (some dup, w) =>
      match cap_set_flag env dup CAP_SETPCAP w with
      | (r, raised_for_setpcap, w) =>
        if r ≠ 0 then
          (w.emit (.perror "unable to select CAP_SETPCAP") w.kernel, .exited 1)
        else
          drop_loop env orig raised_for_setpcap (strtok_all (offset arg tail 7)) w

/-! ## The `--inh` directive (capsh.c lines 87-147) -/

/-- Line 111: the number of bytes asked of `malloc` for the merged text. -/
def inh_alloc_size (names text : CStr) : Nat := 4 + names.length + text.length

/-- Line 116: the characters `sprintf(ptr, "%s all-i %s+i", text, names)` writes
(a terminating NUL follows them). -/
def inh_merged_text (text names : CStr) : CStr :=
  text ++ " all-i ".toList ++ names ++ "+i".toList

/-- Lines 98-104: the attempt to build the duplicate raised for SETPCAP.  The
result is the value of `raised_for_setpcap` after line 104: the condition of
line 99 is `raised_for_setpcap != NULL || cap_set_flag(...) != 0`, and its
right operand is evaluated only when the left one is false. -/
def inh_build_raised (env : Env) (all : CapState) (w : World) : Option CapState × World :=
  match cap_dup env all w with
  | (raised_for_setpcap, w) =>
    if raised_for_setpcap ≠ none then (none, w)
    else
      let (r, w) := cap_set_flag_null CAP_SETPCAP w
      if r ≠ 0 then (none, w) else (raised_for_setpcap, w)

/-- Lines 117-147: the `--inh` branch from the decoding on, `ptr` being the text
the buffer is read back as. -/
def inh_finish (env : Env) (raised_for_setpcap : Option CapState) (ptr : CStr) (w : World) :
    World × Outcome :=
  let all := env.cap_from_text ptr
  let w := w.emit (.fromText ptr all) w.kernel
  match all with
  | none =>
    (w.emit (.perror "Fatal error internalizing capabilities") w.kernel, .exited 1)
  | some all =>
    let w := match raised_for_setpcap with
      | some raised => (cap_set_proc env raised w).2
      | none => w
    let (r, w) := cap_set_proc env all w
    if r ≠ 0 then
      (w.emit (.perror "Unable to set inheritable capabilities") w.kernel, .exited 1)
    else (w, .running)

/-- Lines 88-147: the body of the `--inh` branch for the argument `arg`, followed
in memory by `tail`.  Line 116 writes the merged text and its NUL into the
`size` bytes of line 111; when they do not fit, the environment says what the
overrun does. -/
def inh_directive (env : Env) (arg : CStr) (tail : Mem) (w : World) : World × Outcome :=
  match cap_get_proc env w with
  | (none, w) => (w.emit (.perror "Capabilities not available") w.kernel, .exited 1)
  | (some all, w) =>
    match inh_build_raised env all w with
    | (raised_for_setpcap, w) =>
      let text := env.cap_to_text all
      let w := w.emit (.toText (some all) text) w.kernel
      match text with
      | none =>
        (w.emit (.perror "Fatal error concerning process capabilities") w.kernel,
          .exited 1)
      | some text =>
        let size := inh_alloc_size (offset arg tail 6) text
        if env.mallocOk w.clock = false then
          let w := w.emit (.malloc size false) w.kernel
          (w.emit (.perror "Out of memory for inh set\n") w.kernel, .exited 1)
        else
          let w := w.emit (.malloc size true) w.kernel
          let ptr := inh_merged_text text (offset arg tail 6)
          let w := w.emit (.sprintf ptr) w.kernel
          if ptr.length + 1 ≤ size then inh_finish env raised_for_setpcap ptr w
          else
            match env.overrun w.clock with
            | .harmless => inh_finish env raised_for_setpcap ptr w
            | .garbled read => inh_finish env raised_for_setpcap read w
            | .abort => (w, .aborted)

/-! ## The `--chroot` directive (capsh.c lines 148-186) -/

/-- Lines 149-186: the body of the `--chroot` branch for the argument `arg`. -/
def chroot_directive (env : Env) (arg : CStr) (tail : Mem) (w : World) : World × Outcome :=
  match cap_get_proc env w with
  | (none, w) => (w.emit (.perror "Capabilities not available.") w.kernel, .exited 1)
  | (some orig, w) =>
    match cap_dup env orig w with
    | (none, w) =>
      (w.emit (.perror "Unable to duplicate capabilities") w.kernel, .exited 1)
    | (some dup, w) =>
      match cap_set_flag env dup CAP_SYS_CHROOT w with
      | (r, raised_for_chroot, w) =>
        if r ≠ 0 then
          (w.emit (.perror "unable to select CAP_SET_SYS_CHROOT") w.kernel, .exited 1)
        else
          let (r1, w) := cap_set_proc env raised_for_chroot w
          if r1 ≠ 0 then
            (w.emit (.perror "unable to raise CAP_SYS_CHROOT") w.kernel, .exited 1)
          else
            let (status, w) := chroot env (offset arg tail 9) w
            let (r2, w) := cap_set_proc env orig w
            if r2 ≠ 0 then
              (w.emit (.perror "unable to lower CAP_SYS_CHROOT") w.kernel, .exited 1)
            else if status ≠ 0 then
              (w.emit (.stderr "Unable to chroot to [%s]" [.str (offset arg tail 9)]) w.kernel,
                .exited 1)
            else (w, .running)

/-! ## The `--print` directive (capsh.c lines 187-216) -/

/-- Lines 202-215: the walk over the capability ids from `cap` upwards, until the
query answers `-1`.  `fuel` bounds the number of queries. -/
def print_loop (env : Env) : Nat → Nat → CStr → World → World
  | 0, _, _, w => w
  | fuel + 1, cap, sep, w =>
    let set := prctl_capbset_read w.kernel cap
    if set = -1 then w
    else if set = 0 then print_loop env fuel (cap + 1) sep w
    else
      let w := match env.cap_to_name cap with
        | none => w.emit (.stdout "%s%u" [.str sep, .uint cap]) w.kernel
        | some ptr => w.emit (.stdout "%s%s" [.str sep, .str ptr]) w.kernel
      print_loop env fuel (cap + 1) ",".toList w

/-- Lines 188-216: the body of the `--print` branch.  A NULL text is shown the
way `printf` shows it.  The walk gets one query more than the kernel has ids,
which is what it needs to reach the `-1` answer. -/
def print_directive (env : Env) (w : World) : World × Outcome :=
  match cap_get_proc env w with
  | (all, w) =>
    let text := all.bind env.cap_to_text
    let w := w.emit (.toText all text) w.kernel
    let w := w.emit (.stdout "Current: %s\n" [.str (text.getD "(null)".toList)]) w.kernel
    let w := w.emit (.stdout "Bounding set =" []) w.kernel
    let w := print_loop env (w.kernel.ncaps + 1) 0 [] w
    (w.emit (.stdout "\n" []) w.kernel, .running)

/-! ## The argument loop (capsh.c lines 32-238) -/

/-- Lines 224-231: the format string of the usage message; both `%s` stand for
`argv[0]`. -/
def usage : String :=
  "usage: %s [args ...]\n"
    ++ "  --help         this message\n"
    ++ "  --print        display capability relevant state\n"
    ++ "  --drop=xxx     remove xxx,.. capabilities from bset\n"
    ++ "  --inh=xxx      set xxx,.. inheritiable set\n"
    ++ "  --chroot=path  chroot(2) to this path to invoke bash\n"
    ++ "  --             remaing arguments are for /bin/bash\n"
    ++ "                 (without -- [%s] will simply exit(0))\n"

/-- Lines 217-222: the `--` branch: replace the process image by `/bin/bash` with
the arguments that follow. -/
def exec_directive (env : Env) (rest : List CStr) (w : World) : World × Outcome :=
  if env.execveOk w.clock then
    (w.emit (.execve ("/bin/bash".toList :: rest) true) w.kernel, .execed)
  else
    let w := w.emit (.execve ("/bin/bash".toList :: rest) false) w.kernel
    (w.emit (.stderr "execve /bin/bash failed!\n" []) w.kernel, .exited 1)

/-- Lines 32-238: the loop over `argv[1..]`.  The arguments are given by their
addresses in the memory `mem`, `argv0` being the address of the program name;
an argument is the C string at its address, and a completed `--drop` loop
leaves the NULs of `strtok` in the memory. -/
def main_loop (env : Env) (argv0 : Nat) : List Nat → Mem → World → World × Outcome
  | [], _, w => (w, .exited 0)
  | p :: rest, mem, w =>
    let arg := cstr mem p
    let tail := mem.drop (p + arg.length + 1)
    if memcmp_eq "--drop=" arg 4 then
      match drop_directive env arg tail w with
      | (w, .running) => main_loop env argv0 rest (strtok_mem mem (p + 7)) w
      | r => r
    else if memcmp_eq "--inh=" arg 4 then
      match inh_directive env arg tail w with
      | (w, .running) => main_loop env argv0 rest mem w
      | r => r
    else if memcmp_eq "--chroot=" arg 9 then
      match chroot_directive env arg tail w with
      | (w, .running) => main_loop env argv0 rest mem w
      | r => r
    else if strcmp_eq "--print" arg then
      match print_directive env w with
      | (w, .running) => main_loop env argv0 rest mem w
      | r => r
    else if strcmp_eq "--" arg then
      exec_directive env (rest.map (cstr mem)) w
    else
      (w.emit (.stdout usage [.str (cstr mem argv0), .str (cstr mem argv0)]) w.kernel,
        .exited (if strcmp_eq "--help" arg then 0 else 1))

/-- The program: `main(argc, argv, envp)`.  `after` are the strings that follow
the argument strings in memory: on Linux the environment strings and then the
path of the program, after which the memory holds zero bytes. -/
def main (env : Env) (argv after : List CStr) (w : World) : World × Outcome :=
  main_loop env 0 ((pointers argv 0).drop 1) (layout (argv ++ after)) w

/-! ## Concrete environments and states used in the examples -/

/-- Modelled from the spec: a name table for the four capabilities the spec's
scenarios mention, with the ids Linux gives them. -/
def names4 : List (CStr × Nat) :=
  [("cap_chown".toList, 0), ("cap_setpcap".toList, 8), ("cap_net_raw".toList, 13),
   ("cap_sys_chroot".toList, 18)]

/-- Modelled from the spec: the name-to-id side of the codec over `names4`,
standing in for libcap's `cap_from_name`, which is not among the sources. -/
def lookup4 (name : CStr) : Option Nat := (names4.find? (fun p => p.1 == name)).map Prod.snd

/-- An environment in which every call succeeds and a buffer overrun does no
harm; it knows the names of `names4` and has no text codec. -/
def envOk : Env where
  getProcOk := fun _ => true
  dupOk := fun _ => true
  setFlagOk := fun _ => true
  setProcOk := fun _ => true
  bsetDropOk := fun _ => true
  chrootOk := fun _ => true
  mallocOk := fun _ => true
  execveOk := fun _ => true
  overrun := fun _ => .harmless
  cap_from_name := lookup4
  cap_to_name := fun c => (names4.find? (fun p => p.2 == c)).map Prod.fst
  cap_to_text := fun _ => none
  cap_from_text := fun _ => none

/-- A process with nothing Effective, SETPCAP, SYS_CHROOT and NET_RAW Permitted,
and the bounding set {CHOWN, SYS_CHROOT, SETPCAP, NET_RAW}. -/
def w0 : World where
  kernel := { caps := ⟨∅, {8, 13, 18}, ∅⟩, bset := {0, 18, 8, 13}, ncaps := 38,
              root := "/".toList }
  clock := 0
  trace := []

/-- Like `envOk`, but the root change fails and so does the sixth call of the
process, which in a `--chroot` directive is the install that restores the
original state. -/
def envChrootLowerFails : Env :=
  { envOk with chrootOk := fun _ => false, setProcOk := fun n => n != 5 }

/-- Like `envOk`, but the seventh call of the process fails, which in a `--drop`
directive is the install that restores the original state after the first
bounding-set drop. -/
def envDropLowerFails : Env :=
  { envOk with setProcOk := fun n => n != 6 }

/-- The snapshot the `--chroot` directive installs before the root change: the
original with SYS_CHROOT added to Effective. -/
def raised_chroot (s : CapState) : CapState :=
  { s with effective := insert CAP_SYS_CHROOT s.effective }

/-- The snapshot the `--drop` directive installs before each bounding-set drop:
the original with SETPCAP added to Effective. -/
def raised_setpcap (s : CapState) : CapState :=
  { s with effective := insert CAP_SETPCAP s.effective }

/-- The names handed to `cap_from_name`, in order. -/
def lookups (es : List Event) : List CStr :=
  es.filterMap (fun e => match e with | .fromName n _ => some n | _ => none)

/-- The ids handed to `prctl(PR_CAPBSET_DROP, ·)`, in order. -/
def dropCalls (es : List Event) : List Nat :=
  es.filterMap (fun e => match e with | .bsetDrop c _ => some c | _ => none)

/-- The ids whose bounding-set drop succeeded, in order. -/
def dropsDone (es : List Event) : List Nat :=
  es.filterMap (fun e => match e with | .bsetDrop c true => some c | _ => none)

/-- The world after one full turn of the `--drop` loop in which both installs
and the drop succeed. -/
def afterDrop (orig raised : CapState) (ptr : CStr) (c : Nat) (w : World) : World :=
  (((w.emit (.fromName ptr (some c)) w.kernel).emit (.setProc raised true)
      { w.kernel with caps := raised }).emit (.bsetDrop c true)
      { w.kernel with caps := raised, bset := w.kernel.bset.erase c }).emit (.setProc orig true)
      { w.kernel with caps := orig, bset := w.kernel.bset.erase c }

/-- Whether an event can leave the elevated snapshot in the kernel during the
`--drop` loop: a successful install of the elevated snapshot, the bounding-set
drop, a failed install of the original, and the diagnostic of that failure. -/
def inWindow (orig raised : CapState) : Event → Bool
  | .setProc s ok => (s == raised && ok) || (s == orig && !ok)
  | .bsetDrop _ _ => true
  | .perror msg => msg == "unable to lower CAP_SETPCAP post BSET change"
  | _ => false

/-- The world after the three set-up calls of `--drop` or `--chroot` succeeded:
the snapshot is read, duplicated, and `cap` is set in the duplicate. -/
def afterSetup (cap : Nat) (w : World) : World :=
  ((w.emit (.getProc (some w.kernel.caps)) w.kernel).emit (.dup (some w.kernel.caps))
    w.kernel).emit (.setFlag cap true) w.kernel

/-! ## A clause codec, as an instance of a codec that applies clauses left to right -/

/-- The capabilities a clause names: all of them, or the listed ids. -/
inductive CapList where
  | all
  | ids (s : Finset Nat)
deriving DecidableEq

/-- A clause `<capabilities><operator><flags>` once read: the operator is one of
`=`, `+`, `-`; the flags say which of the sets e, i, p it touches. -/
structure Clause where
  caps : CapList
  op : Char
  e : Bool
  i : Bool
  p : Bool
deriving DecidableEq

/-- Resolve every name of a list with `lookup4`, or fail. -/
def lookupAll : List CStr → Option (List Nat)
  | [] => some []
  | n :: ns =>
    match lookup4 n, lookupAll ns with
    | some c, some cs => some (c :: cs)
    | _, _ => none

/-- Read the capability list of a clause: empty or `all` for every capability,
otherwise comma-separated names. -/
def parseList (l : CStr) : Option CapList :=
  if l = [] ∨ l = "all".toList then some .all
  else (lookupAll (fields ',' l)).map (fun cs => .ids cs.toFinset)

/-- Read one clause.  Only `=` may come without a list of capabilities. -/
def parseClause (c : CStr) : Option Clause :=
  let l := c.takeWhile (fun x => x != '=' && x != '+' && x != '-')
  match c.drop l.length with
  | [] => none
  | op :: flags =>
    if l = [] ∧ op ≠ '=' then none
    else if flags.all (fun x => x == 'e' || x == 'i' || x == 'p') then
      (parseList l).map (fun cl =>
        { caps := cl, op := op, e := flags.contains 'e', i := flags.contains 'i',
          p := flags.contains 'p' })
    else none

/-- Remove the capabilities of a clause from a set. -/
def CapList.lower (l : CapList) (s : Finset Nat) : Finset Nat :=
  match l with
  | .all => ∅
  | .ids x => s \ x

/-- Add the capabilities of a clause to a set (`all` stands for the ids below 64). -/
def CapList.raise (l : CapList) (s : Finset Nat) : Finset Nat :=
  match l with
  | .all => s ∪ Finset.range 64
  | .ids x => s ∪ x

/-- Apply one clause to a state: `=` resets the named capabilities in all three
sets and then raises the flagged ones, `+` raises and `-` lowers the flagged
sets. -/
def applyClause (cl : Clause) (s : CapState) : CapState :=
  if cl.op = '=' then
    { effective := if cl.e then cl.caps.raise (cl.caps.lower s.effective)
                   else cl.caps.lower s.effective
      permitted := if cl.p then cl.caps.raise (cl.caps.lower s.permitted)
                   else cl.caps.lower s.permitted
      inheritable := if cl.i then cl.caps.raise (cl.caps.lower s.inheritable)
                     else cl.caps.lower s.inheritable }
  else if cl.op = '+' then
    { effective := if cl.e then cl.caps.raise s.effective else s.effective
      permitted := if cl.p then cl.caps.raise s.permitted else s.permitted
      inheritable := if cl.i then cl.caps.raise s.inheritable else s.inheritable }
  else
    { effective := if cl.e then cl.caps.lower s.effective else s.effective
      permitted := if cl.p then cl.caps.lower s.permitted else s.permitted
      inheritable := if cl.i then cl.caps.lower s.inheritable else s.inheritable }

/-- Read and apply one clause. -/
def stepClause (s : Option CapState) (c : CStr) : Option CapState :=
  s.bind (fun st => (parseClause c).map (fun cl => applyClause cl st))

/-- Modelled from the spec: a decoder for the clause texts of section 6 (`all-i`,
`<name>+i`, ...), standing in for libcap's `cap_from_text`, which is not among
the sources.  The clauses of a text, separated by blanks, are applied one after
the other, from the left, starting from the empty state. -/
def decode4 (t : CStr) : Option CapState :=
  ((fields ' ' t).filter (fun c => c ≠ [])).foldl stepClause (some ⟨∅, ∅, ∅⟩)

/-- The flag letters a capability has in a state. -/
def flagsOf (s : CapState) (c : Nat) : CStr :=
  (if c ∈ s.effective then ['e'] else []) ++ (if c ∈ s.inheritable then ['i'] else [])
    ++ (if c ∈ s.permitted then ['p'] else [])

/-- Modelled from the spec: an encoder for states over the capabilities of
`names4`, standing in for libcap's `cap_to_text`, which is not among the
sources: `=` and then one clause `<name>+<flags>` for every capability that has
a flag. -/
def encode4 (s : CapState) : CStr :=
  '=' :: names4.foldr
    (fun p acc => if flagsOf s p.2 = [] then acc else ' ' :: p.1 ++ '+' :: flagsOf s p.2 ++ acc) []

/-- Like `envOk`, with the clause codec as the text codec. -/
def envCodec : Env :=
  { envOk with cap_to_text := fun s => some (encode4 s), cap_from_text := decode4 }

/-- A process with Inheritable {CHOWN, SETPCAP}, Permitted {CHOWN, SETPCAP,
NET_RAW} and nothing Effective. -/
def wInh : World where
  kernel := { caps := ⟨∅, {0, 8, 13}, {0, 8}⟩, bset := {0, 18, 8, 13}, ncaps := 38,
              root := "/".toList }
  clock := 0
  trace := []

/-- The states handed to `cap_set_proc`, in order. -/
def installs (es : List Event) : List CapState :=
  es.filterMap (fun e => match e with | .setProc s _ => some s | _ => none)

/-- Like `envOk`, but the root change fails. -/
def envChrootFails : Env :=
  { envOk with chrootOk := fun _ => false }

/-- What the log of a run of the `--inh` directive looks like, as far as installs
go: no successful `cap_set_flag`, at most one install, and only of a state the
decoder returned. -/
def InhShape (new : List Event) : Prop :=
  Event.setFlag CAP_SETPCAP true ∉ new
  ∧ (installs new).length ≤ 1
  ∧ ∀ s ∈ installs new, ∃ t, Event.fromText t (some s) ∈ new

/-- Like `envCodec`, but the overrun of a heap block makes the allocator kill the
process. -/
def envCodecAbort : Env :=
  { envCodec with overrun := fun _ => .abort }

/-- Like `envCodec`, but after the overrun of a heap block the block reads back
as its first 72 bytes followed by a byte of allocator bookkeeping (a block of
70 bytes asked of glibc's `malloc` has 72 usable bytes). -/
def envCodecGarbled : Env :=
  { envCodec with
    overrun := fun _ => Overrun.garbled
      ("= cap_chown+ip cap_setpcap+ip cap_net_raw+p all-i cap_setpcap,cap_net_ra".toList
        ++ [Char.ofNat 1]) }

/-! # Properties -/

/-! ## Basic facts about the log -/

@[simp] theorem emit_kernel (w : World) (e : Event) (k : Kernel) : (w.emit e k).kernel = k := rfl

@[simp] theorem emit_clock (w : World) (e : Event) (k : Kernel) :
    (w.emit e k).clock = w.clock + 1 := rfl

@[simp] theorem emit_trace (w : World) (e : Event) (k : Kernel) :
    (w.emit e k).trace = w.trace ++ [(e, k)] := rfl

@[simp] theorem emit_events (w : World) (e : Event) (k : Kernel) :
    (w.emit e k).events = w.events ++ [e] := by simp [World.events]

/-! ## The memory of the arguments -/

theorem takeWhile_drop_of_le (P : Char → Bool) :
    ∀ (l : List Char) (n : Nat), n ≤ (l.takeWhile P).length →
      (l.takeWhile P).drop n = (l.drop n).takeWhile P := by
  intro l
  induction l with
  | nil => intro n _; simp
  | cons c cs ih =>
    intro n h
    cases n with
    | zero => simp
    | succ n =>
      by_cases hc : P c = true
      · simp only [List.takeWhile_cons, hc, if_true, List.length_cons, Nat.add_le_add_iff_right,
          List.drop_succ_cons] at h ⊢
        exact ih n h
      · simp [List.takeWhile_cons, hc] at h

/-- The model of `argv[i] + n` reads the memory byte for byte: for the argument
at address `p` and the memory behind it, it is the C string at address `p + n`. -/
theorem offset_eq_cstr (mem : Mem) (p n : Nat) :
    offset (cstr mem p) (mem.drop (p + (cstr mem p).length + 1)) n = cstr mem (p + n) := by
  unfold offset
  split_ifs with h
  · unfold cstr at h ⊢
    rw [takeWhile_drop_of_le _ _ _ h, List.drop_drop]
  · unfold cstr
    rw [List.drop_drop]
    congr 2
    simp only [cstr] at h
    omega

/-! ## The `--drop` loop -/


/-- One turn of the `--drop` loop in which the name resolves and the two installs
and the drop succeed: the loop goes on from `afterDrop`. -/
theorem drop_loop_cons_ok (env : Env) (orig raised : CapState) (ptr : CStr) (rest : List CStr)
    (c : Nat) (w : World) (hc : env.cap_from_name ptr = some c)
    (h1 : env.setProcOk (w.clock + 1) = true) (h2 : env.bsetDropOk (w.clock + 1 + 1) = true)
    (h3 : env.setProcOk (w.clock + 1 + 1 + 1) = true) :
    drop_loop env orig raised (ptr :: rest) w
      = drop_loop env orig raised rest (afterDrop orig raised ptr c w) := by
  simp [drop_loop, cap_set_proc, prctl_capbset_drop, hc, h1, h2, h3, afterDrop]

theorem afterDrop_events (orig raised : CapState) (ptr : CStr) (c : Nat) (w : World) :
    (afterDrop orig raised ptr c w).events = w.events ++
      [.fromName ptr (some c), .setProc raised true, .bsetDrop c true, .setProc orig true] := by
  simp [afterDrop]

theorem afterDrop_kernel (orig raised : CapState) (ptr : CStr) (c : Nat) (w : World) :
    (afterDrop orig raised ptr c w).kernel
      = { w.kernel with caps := orig, bset := w.kernel.bset.erase c } := by
  simp [afterDrop]

/-- What the `--drop` loop does to the log and the bounding set when every name
resolves, for every outcome of the calls: names are looked up and dropped in
order, a failed call ends the run with status 1, and the bounding set loses
exactly the ids whose drop succeeded. -/
theorem drop_loop_summary (env : Env) (orig raised : CapState) :
    ∀ (names : List CStr) (ids : List Nat) (w : World),
      names.map env.cap_from_name = ids.map some →
      ∃ new : List Event,
        (drop_loop env orig raised names w).1.events = w.events ++ new
        ∧ lookups new <+: names ∧ dropCalls new <+: ids ∧ dropsDone new <+: dropCalls new
        ∧ (∀ n, Event.fromName n none ∉ new)
        ∧ (drop_loop env orig raised names w).1.kernel.bset
            = w.kernel.bset \ (dropsDone new).toFinset
        ∧ ((drop_loop env orig raised names w).2 = .running
            ∨ (drop_loop env orig raised names w).2 = .exited 1)
        ∧ ((drop_loop env orig raised names w).2 = .running →
            dropsDone new = ids ∧ lookups new = names)
        ∧ ((∀ n, env.setProcOk n = true ∧ env.bsetDropOk n = true) →
            (drop_loop env orig raised names w).2 = .running) := by
  intro names
  induction names with
  | nil =>
    intro ids w h
    refine ⟨[], ?_⟩
    cases ids <;> simp_all [drop_loop, lookups, dropCalls, dropsDone]
  | cons ptr rest ih =>
    intro ids w h
    cases ids with
    | nil => simp at h
    | cons c cs =>
      simp only [List.map_cons, List.cons.injEq] at h
      obtain ⟨hc, hrest⟩ := h
      rcases h1 : env.setProcOk (w.clock + 1) with _ | _
      · refine ⟨[.fromName ptr (some c), .setProc raised false,
          .perror "unable to raise CAP_SETPCAP for BSET changes"], ?_⟩
        simp [drop_loop, cap_set_proc, hc, h1, lookups, dropCalls, dropsDone]
        exact ⟨w.clock + 1, by simp [h1]⟩
      · rcases h2 : env.bsetDropOk (w.clock + 1 + 1) with _ | _ <;>
        rcases h3 : env.setProcOk (w.clock + 1 + 1 + 1) with _ | _
        · refine ⟨[.fromName ptr (some c), .setProc raised true, .bsetDrop c false,
            .setProc orig false, .perror "unable to lower CAP_SETPCAP post BSET change"], ?_⟩
          simp [drop_loop, cap_set_proc, prctl_capbset_drop, hc, h1, h2, h3, lookups,
            dropCalls, dropsDone]
          exact ⟨w.clock + 1 + 1, by simp [h2]⟩
        · refine ⟨[.fromName ptr (some c), .setProc raised true, .bsetDrop c false,
            .setProc orig true, .stderr "failed to drop [%s=%u]\n" [.str ptr, .uint c]], ?_⟩
          simp [drop_loop, cap_set_proc, prctl_capbset_drop, hc, h1, h2, h3, lookups,
            dropCalls, dropsDone]
          exact ⟨w.clock + 1 + 1, by simp [h2]⟩
        · refine ⟨[.fromName ptr (some c), .setProc raised true, .bsetDrop c true,
            .setProc orig false, .perror "unable to lower CAP_SETPCAP post BSET change"], ?_⟩
          simp [drop_loop, cap_set_proc, prctl_capbset_drop, hc, h1, h2, h3, lookups,
            dropCalls, dropsDone]
          exact ⟨by ext x; simp [and_comm], w.clock + 1 + 1 + 1, by simp [h3]⟩
        · obtain ⟨new, hnew, hl, hd, hdd, hnone, hb, hout, hrun, hok⟩ :=
            ih cs (afterDrop orig raised ptr c w) hrest
          rw [drop_loop_cons_ok env orig raised ptr rest c w hc h1 h2 h3]
          refine ⟨[.fromName ptr (some c), .setProc raised true, .bsetDrop c true,
            .setProc orig true] ++ new, ?_, ?_, ?_, ?_, ?_, ?_, hout, ?_, hok⟩
          · rw [hnew, afterDrop_events]; simp
          · simpa [lookups] using hl
          · simpa [dropCalls] using hd
          · simpa [dropCalls, dropsDone] using hdd
          · intro n; simpa using hnone n
          · rw [hb, afterDrop_kernel]
            ext x; simp [dropsDone]; tauto
          · intro hr
            obtain ⟨h5, h6⟩ := hrun hr
            constructor
            · simpa [dropsDone] using h5
            · simpa [lookups] using h6


theorem afterDrop_trace (orig raised : CapState) (ptr : CStr) (c : Nat) (w : World) :
    (afterDrop orig raised ptr c w).trace = w.trace ++
      [(.fromName ptr (some c), w.kernel),
       (.setProc raised true, { w.kernel with caps := raised }),
       (.bsetDrop c true, { w.kernel with caps := raised, bset := w.kernel.bset.erase c }),
       (.setProc orig true, { w.kernel with caps := orig, bset := w.kernel.bset.erase c })] := by
  simp [afterDrop]

/-- The capability state along the `--drop` loop, for every outcome of the calls:
after each step it is the original, except inside the window opened by a
successful install of the elevated snapshot, where it is that snapshot. -/
theorem drop_loop_caps (env : Env) (orig raised : CapState) :
    ∀ (names : List CStr) (w : World),
      w.kernel.caps = orig →
      w.events.getLast? ≠ some (.perror "unable to lower CAP_SETPCAP post BSET change") →
      (∃ new : List (Event × Kernel),
        (drop_loop env orig raised names w).1.trace = w.trace ++ new
        ∧ ∀ p ∈ new, p.2.caps = orig ∨ (p.2.caps = raised ∧ inWindow orig raised p.1 = true))
      ∧ ((drop_loop env orig raised names w).2 = .running →
          (drop_loop env orig raised names w).1.kernel.caps = orig)
      ∧ ((drop_loop env orig raised names w).1.events.getLast? ≠
            some (.perror "unable to lower CAP_SETPCAP post BSET change") →
          (drop_loop env orig raised names w).1.kernel.caps = orig)
      ∧ ((drop_loop env orig raised names w).1.events.getLast? =
            some (.perror "unable to lower CAP_SETPCAP post BSET change") →
          (drop_loop env orig raised names w).2 = .exited 1
          ∧ (drop_loop env orig raised names w).1.kernel.caps = raised) := by
  intro names
  induction names with
  | nil =>
    intro w h hl
    exact ⟨⟨[], by simp [drop_loop]⟩, by simp [drop_loop, h], by simp [drop_loop, h],
      by simp [drop_loop, hl]⟩
  | cons ptr rest ih =>
    intro w h hl
    rcases hc : env.cap_from_name ptr with _ | c
    · refine ⟨⟨[(.fromName ptr none, w.kernel),
        (.stderr "capability [%s] is unknown to libcap\n" [.str ptr], w.kernel)], ?_⟩, ?_⟩
      · simp [drop_loop, hc, h]
      · simp [drop_loop, hc, h]
    · rcases h1 : env.setProcOk (w.clock + 1) with _ | _
      · refine ⟨⟨[(.fromName ptr (some c), w.kernel), (.setProc raised false, w.kernel),
          (.perror "unable to raise CAP_SETPCAP for BSET changes", w.kernel)], ?_⟩, ?_⟩
        · simp [drop_loop, cap_set_proc, hc, h1, h]
        · simp [drop_loop, cap_set_proc, hc, h1, h]
      · rcases h2 : env.bsetDropOk (w.clock + 1 + 1) with _ | _ <;>
        rcases h3 : env.setProcOk (w.clock + 1 + 1 + 1) with _ | _
        · refine ⟨⟨[(.fromName ptr (some c), w.kernel),
            (.setProc raised true, { w.kernel with caps := raised }),
            (.bsetDrop c false, { w.kernel with caps := raised }),
            (.setProc orig false, { w.kernel with caps := raised }),
            (.perror "unable to lower CAP_SETPCAP post BSET change",
              { w.kernel with caps := raised })], ?_⟩, ?_⟩
          · simp [drop_loop, cap_set_proc, prctl_capbset_drop, hc, h1, h2, h3, h, inWindow]
          · simp [drop_loop, cap_set_proc, prctl_capbset_drop, hc, h1, h2, h3, h]
        · refine ⟨⟨[(.fromName ptr (some c), w.kernel),
            (.setProc raised true, { w.kernel with caps := raised }),
            (.bsetDrop c false, { w.kernel with caps := raised }),
            (.setProc orig true, { w.kernel with caps := orig }),
            (.stderr "failed to drop [%s=%u]\n" [.str ptr, .uint c],
              { w.kernel with caps := orig })], ?_⟩, ?_⟩
          · simp [drop_loop, cap_set_proc, prctl_capbset_drop, hc, h1, h2, h3, h, inWindow]
          · simp [drop_loop, cap_set_proc, prctl_capbset_drop, hc, h1, h2, h3, h]
        · refine ⟨⟨[(.fromName ptr (some c), w.kernel),
            (.setProc raised true, { w.kernel with caps := raised }),
            (.bsetDrop c true, { w.kernel with caps := raised, bset := w.kernel.bset.erase c }),
            (.setProc orig false,
              { w.kernel with caps := raised, bset := w.kernel.bset.erase c }),
            (.perror "unable to lower CAP_SETPCAP post BSET change",
              { w.kernel with caps := raised, bset := w.kernel.bset.erase c })], ?_⟩, ?_⟩
          · simp [drop_loop, cap_set_proc, prctl_capbset_drop, hc, h1, h2, h3, h, inWindow]
          · simp [drop_loop, cap_set_proc, prctl_capbset_drop, hc, h1, h2, h3, h]
        · rw [drop_loop_cons_ok env orig raised ptr rest c w hc h1 h2 h3]
          obtain ⟨⟨new, hnew, hall⟩, hrest⟩ := ih (afterDrop orig raised ptr c w)
            (by simp [afterDrop_kernel]) (by simp [afterDrop_events])
          refine ⟨⟨_, by rw [hnew, afterDrop_trace, List.append_assoc], ?_⟩, hrest⟩
          intro p hp
          rcases List.mem_append.1 hp with hp | hp
          · simp at hp
            rcases hp with rfl | rfl | rfl | rfl <;> simp [h, inWindow]
          · exact hall p hp


/-! ## C10: the buffer of the merged text -/

/-- C10 (as the code behaves): for every encoded current-state text and every
requested-names string, the string written by line 116 together with its
terminating NUL is six bytes longer than the `4 + strlen(names) + strlen(text)`
bytes allocated at line 111; the allocation is never large enough. -/
theorem inh_buffer_six_short (text names : CStr) :
    (inh_merged_text text names).length + 1 = inh_alloc_size names text + 6 := by
  simp [inh_merged_text, inh_alloc_size]
  omega

/-! ## C1 and C6: the `--chroot` directive -/

/-- C1 (counterexample): with nothing Effective before, a `--chroot` directive
whose restoring install fails ends in a fatal exit at which SYS_CHROOT is
Effective: the sets at the end are not the sets held before. -/
theorem chroot_restore_failure_leaves_sys_chroot :
    (chroot_directive envChrootLowerFails "--chroot=/nonexistent/path".toList [] w0).2 = .exited 1
    ∧ CAP_SYS_CHROOT ∉ w0.kernel.caps.effective
    ∧ CAP_SYS_CHROOT ∈
        (chroot_directive envChrootLowerFails "--chroot=/nonexistent/path".toList []
          w0).1.kernel.caps.effective
    ∧ (chroot_directive envChrootLowerFails "--chroot=/nonexistent/path".toList [] w0).1.kernel.caps
        ≠ w0.kernel.caps := by
  decide

/-- C1 (amended): for every path, every prior state and every outcome of the
`--chroot` directive other than the fatal exit taken when the restoring install
fails ("unable to lower CAP_SYS_CHROOT"), the capability sets when the directive
ends are exactly the sets held before it began; at that one exit the process
status is 1 and the kernel holds the original sets with SYS_CHROOT added to
Effective. -/
theorem chroot_restores_unless_lower_fails (env : Env) (arg : CStr) (tail : Mem) (w : World) :
    ((chroot_directive env arg tail w).1.events.getLast? ≠
        some (.perror "unable to lower CAP_SYS_CHROOT") →
      (chroot_directive env arg tail w).1.kernel.caps = w.kernel.caps)
    ∧ ((chroot_directive env arg tail w).1.events.getLast? =
        some (.perror "unable to lower CAP_SYS_CHROOT") →
      (chroot_directive env arg tail w).2 = .exited 1
      ∧ (chroot_directive env arg tail w).1.kernel.caps = raised_chroot w.kernel.caps) := by
  rcases h0 : env.getProcOk w.clock with _ | _ <;>
  rcases h1 : env.dupOk (w.clock + 1) with _ | _ <;>
  rcases h2 : env.setFlagOk (w.clock + 1 + 1) with _ | _ <;>
  rcases h3 : env.setProcOk (w.clock + 1 + 1 + 1) with _ | _ <;>
  rcases h4 : env.chrootOk (w.clock + 1 + 1 + 1 + 1) with _ | _ <;>
  rcases h5 : env.setProcOk (w.clock + 1 + 1 + 1 + 1 + 1) with _ | _ <;>
  simp [chroot_directive, cap_get_proc, cap_dup, cap_set_flag, cap_set_proc, chroot,
    raised_chroot, h0, h1, h2, h3, h4, h5]

/-- C6: in the `--chroot` directive, once the elevated state has been installed,
the log continues with the root change, then exactly one install of the
original state whatever the root change returned, and only then a diagnostic:
"unable to lower CAP_SYS_CHROOT" with exit status 1 when that install failed
(also when the root change failed too), otherwise the message naming the path
with exit status 1 exactly when the root change failed, otherwise nothing and
control goes on. -/
theorem chroot_restore_then_status (env : Env) (arg : CStr) (tail : Mem) (w : World)
    (hget : env.getProcOk w.clock = true) (hdup : env.dupOk (w.clock + 1) = true)
    (hflag : env.setFlagOk (w.clock + 1 + 1) = true)
    (hraise : env.setProcOk (w.clock + 1 + 1 + 1) = true) :
    (chroot_directive env arg tail w).1.events =
      w.events ++
        [.getProc (some w.kernel.caps), .dup (some w.kernel.caps),
         .setFlag CAP_SYS_CHROOT true, .setProc (raised_chroot w.kernel.caps) true,
         .chroot (offset arg tail 9) (env.chrootOk (w.clock + 1 + 1 + 1 + 1)),
         .setProc w.kernel.caps (env.setProcOk (w.clock + 1 + 1 + 1 + 1 + 1))] ++
        (if env.setProcOk (w.clock + 1 + 1 + 1 + 1 + 1) = false then
          [.perror "unable to lower CAP_SYS_CHROOT"]
         else if env.chrootOk (w.clock + 1 + 1 + 1 + 1) = false then
          [.stderr "Unable to chroot to [%s]" [.str (offset arg tail 9)]]
         else [])
    ∧ (chroot_directive env arg tail w).2 =
        (if env.setProcOk (w.clock + 1 + 1 + 1 + 1 + 1) = false then .exited 1
         else if env.chrootOk (w.clock + 1 + 1 + 1 + 1) = false then .exited 1
         else .running) := by
  rcases h4 : env.chrootOk (w.clock + 1 + 1 + 1 + 1) with _ | _ <;>
  rcases h5 : env.setProcOk (w.clock + 1 + 1 + 1 + 1 + 1) with _ | _ <;>
  simp [chroot_directive, cap_get_proc, cap_dup, cap_set_flag, cap_set_proc, chroot,
    raised_chroot, hget, hdup, hflag, hraise, h4, h5]

/-- C6 (witness): for a missing path the root change fails.  When the restoring
install fails too, the exit is the "unable to lower" one; when it succeeds, the
exit names the path, after the original state is back in the kernel. -/
theorem chroot_restore_then_status_witness :
    ((chroot_directive envChrootLowerFails "--chroot=/nonexistent/path".toList [] w0).1.events =
        [.getProc (some ⟨∅, {8, 13, 18}, ∅⟩), .dup (some ⟨∅, {8, 13, 18}, ∅⟩),
         .setFlag 18 true, .setProc ⟨{18}, {8, 13, 18}, ∅⟩ true,
         .chroot "/nonexistent/path".toList false, .setProc ⟨∅, {8, 13, 18}, ∅⟩ false,
         .perror "unable to lower CAP_SYS_CHROOT"]
      ∧ (chroot_directive envChrootLowerFails "--chroot=/nonexistent/path".toList [] w0).2
          = .exited 1)
    ∧ ((chroot_directive envChrootFails "--chroot=/nonexistent/path".toList [] w0).1.events =
        [.getProc (some ⟨∅, {8, 13, 18}, ∅⟩), .dup (some ⟨∅, {8, 13, 18}, ∅⟩),
         .setFlag 18 true, .setProc ⟨{18}, {8, 13, 18}, ∅⟩ true,
         .chroot "/nonexistent/path".toList false, .setProc ⟨∅, {8, 13, 18}, ∅⟩ true,
         .stderr "Unable to chroot to [%s]" [.str "/nonexistent/path".toList]]
      ∧ (chroot_directive envChrootFails "--chroot=/nonexistent/path".toList [] w0).2
          = .exited 1) :=
  ⟨chroot_restore_then_status envChrootLowerFails "--chroot=/nonexistent/path".toList [] w0
      (by decide) (by decide) (by decide) (by decide),
    chroot_restore_then_status envChrootFails "--chroot=/nonexistent/path".toList [] w0
      (by decide) (by decide) (by decide) (by decide)⟩

/-! ## C2, C4, C5: the `--drop` directive -/

/-- When the three set-up calls succeed, the `--drop` directive is its loop, run
on the tokens of `argv[i]+7` with the original and the elevated snapshot. -/
theorem drop_directive_setup_ok (env : Env) (arg : CStr) (tail : Mem) (w : World)
    (h0 : env.getProcOk w.clock = true) (h1 : env.dupOk (w.clock + 1) = true)
    (h2 : env.setFlagOk (w.clock + 1 + 1) = true) :
    drop_directive env arg tail w
      = drop_loop env w.kernel.caps (raised_setpcap w.kernel.caps) (strtok_all (offset arg tail 7))
          (afterSetup CAP_SETPCAP w) := by
  simp [drop_directive, cap_get_proc, cap_dup, cap_set_flag, h0, h1, h2, afterSetup,
    raised_setpcap]

/-- The loop over `pre ++ rest` is the loop over `pre` followed, when that one got
through, by the loop over `rest`. -/
theorem drop_loop_append (env : Env) (orig raised : CapState) (rest : List CStr) :
    ∀ (pre : List CStr) (w : World),
      drop_loop env orig raised (pre ++ rest) w
        = if (drop_loop env orig raised pre w).2 = .running
          then drop_loop env orig raised rest (drop_loop env orig raised pre w).1
          else drop_loop env orig raised pre w := by
  intro pre
  induction pre with
  | nil => intro w; simp [drop_loop]
  | cons ptr pre ih =>
    intro w
    rcases hc : env.cap_from_name ptr with _ | c
    · simp [drop_loop, hc]
    · rcases h1 : env.setProcOk (w.clock + 1) with _ | _
      · simp [drop_loop, cap_set_proc, hc, h1]
      · rcases h2 : env.bsetDropOk (w.clock + 1 + 1) with _ | _ <;>
        rcases h3 : env.setProcOk (w.clock + 1 + 1 + 1) with _ | _
        · simp [drop_loop, cap_set_proc, prctl_capbset_drop, hc, h1, h2, h3]
        · simp [drop_loop, cap_set_proc, prctl_capbset_drop, hc, h1, h2, h3]
        · simp [drop_loop, cap_set_proc, prctl_capbset_drop, hc, h1, h2, h3]
        · rw [List.cons_append, drop_loop_cons_ok env orig raised ptr _ c w hc h1 h2 h3,
            drop_loop_cons_ok env orig raised ptr _ c w hc h1 h2 h3, ih]

/-- C2 (counterexample): with SETPCAP not Effective before, a `--drop` directive
whose restoring install fails ends at a fatal exit ("unable to lower ...") at
which SETPCAP is Effective. -/
theorem drop_restore_failure_leaves_setpcap :
    (drop_directive envDropLowerFails "--drop=cap_net_raw".toList [] w0).2 = .exited 1
    ∧ (drop_directive envDropLowerFails "--drop=cap_net_raw".toList [] w0).1.events.getLast?
        = some (.perror "unable to lower CAP_SETPCAP post BSET change")
    ∧ CAP_SETPCAP ∉ w0.kernel.caps.effective
    ∧ CAP_SETPCAP ∈
        (drop_directive envDropLowerFails "--drop=cap_net_raw".toList [] w0).1.kernel.caps.effective := by
  decide

/-- C2 (amended): during the `--drop` directive, for every argument and every
outcome of the calls, the kernel-held capability state right after a step
differs from the pre-directive state only when the step is a successful install
of the elevated snapshot, the bounding-set drop that follows it, or, when the
restoring install fails, that failed install and the diagnostic of the fatal
exit it causes; there it is the original with SETPCAP added to Effective.  At
the end of the directive the state is the pre-directive state unless the
directive ended at that "unable to lower" exit. -/
theorem drop_elevation_window (env : Env) (arg : CStr) (tail : Mem) (w : World) :
    (∀ p ∈ (drop_directive env arg tail w).1.trace.drop w.trace.length,
      p.2.caps = w.kernel.caps
      ∨ (p.2.caps = raised_setpcap w.kernel.caps
          ∧ inWindow w.kernel.caps (raised_setpcap w.kernel.caps) p.1 = true))
    ∧ ((drop_directive env arg tail w).1.events.getLast? ≠
          some (.perror "unable to lower CAP_SETPCAP post BSET change") →
        (drop_directive env arg tail w).1.kernel.caps = w.kernel.caps)
    ∧ ((drop_directive env arg tail w).1.events.getLast? =
          some (.perror "unable to lower CAP_SETPCAP post BSET change") →
        (drop_directive env arg tail w).2 = .exited 1
        ∧ (drop_directive env arg tail w).1.kernel.caps = raised_setpcap w.kernel.caps) := by
  rcases h0 : env.getProcOk w.clock with _ | _
  · simp [drop_directive, cap_get_proc, h0]
  rcases h1 : env.dupOk (w.clock + 1) with _ | _
  · simp [drop_directive, cap_get_proc, cap_dup, h0, h1]
  rcases h2 : env.setFlagOk (w.clock + 1 + 1) with _ | _
  · simp [drop_directive, cap_get_proc, cap_dup, cap_set_flag, h0, h1, h2]
  rw [drop_directive_setup_ok env arg tail w h0 h1 h2]
  obtain ⟨⟨new, hnew, hall⟩, -, hrest⟩ := drop_loop_caps env w.kernel.caps
    (raised_setpcap w.kernel.caps) (strtok_all (offset arg tail 7)) (afterSetup CAP_SETPCAP w)
    (by simp [afterSetup]) (by simp [afterSetup])
  refine ⟨?_, hrest⟩
  intro p hp
  rw [hnew] at hp
  simp [afterSetup] at hp
  rcases hp with rfl | rfl | rfl | hp
  · simp
  · simp
  · simp
  · exact hall p hp

theorem offset_drop (names : CStr) (tail : Mem) :
    offset ("--drop=".toList ++ names) tail 7 = names := by
  simp [offset]

theorem afterSetup_events (cap : Nat) (w : World) :
    (afterSetup cap w).events = w.events ++
      [.getProc (some w.kernel.caps), .dup (some w.kernel.caps), .setFlag cap true] := by
  simp [afterSetup]

theorem afterSetup_kernel (cap : Nat) (w : World) : (afterSetup cap w).kernel = w.kernel := by
  simp [afterSetup]

/-- C4: for every `--drop` list in which every name resolves and every call of
the directive succeeds, control goes on to the next directive, the bounding set
afterwards is exactly the prior bounding set minus the ids of the listed names,
and the capability state equals the original. -/
theorem drop_all_succeed (env : Env) (names : CStr) (tail : Mem) (ids : List Nat) (w : World)
    (hget : ∀ n, env.getProcOk n = true) (hdup : ∀ n, env.dupOk n = true)
    (hflag : ∀ n, env.setFlagOk n = true)
    (hcalls : ∀ n, env.setProcOk n = true ∧ env.bsetDropOk n = true)
    (hres : (strtok_all names).map env.cap_from_name = ids.map some) :
    (drop_directive env ("--drop=".toList ++ names) tail w).2 = .running
    ∧ (drop_directive env ("--drop=".toList ++ names) tail w).1.kernel.bset
        = w.kernel.bset \ ids.toFinset
    ∧ (drop_directive env ("--drop=".toList ++ names) tail w).1.kernel.caps = w.kernel.caps := by
  rw [drop_directive_setup_ok env _ tail w (hget _) (hdup _) (hflag _), offset_drop]
  obtain ⟨new, -, -, -, -, -, hb, -, hrun, hok⟩ := drop_loop_summary env w.kernel.caps
    (raised_setpcap w.kernel.caps) (strtok_all names) ids (afterSetup CAP_SETPCAP w) hres
  obtain ⟨-, hcaps, -⟩ := drop_loop_caps env w.kernel.caps
    (raised_setpcap w.kernel.caps) (strtok_all names) (afterSetup CAP_SETPCAP w)
    (by simp [afterSetup]) (by simp [afterSetup])
  have hr := hok hcalls
  refine ⟨hr, ?_, hcaps hr⟩
  rw [hb, (hrun hr).1, afterSetup_kernel]

/-- C4 (witness): dropping net_raw from {CHOWN, SYS_CHROOT, SETPCAP, NET_RAW}
leaves exactly {CHOWN, SYS_CHROOT, SETPCAP}. -/
theorem drop_all_succeed_witness :
    (drop_directive envOk "--drop=cap_net_raw".toList [] w0).2 = .running
    ∧ (drop_directive envOk "--drop=cap_net_raw".toList [] w0).1.kernel.bset = {0, 18, 8}
    ∧ (drop_directive envOk "--drop=cap_net_raw".toList [] w0).1.kernel.caps = w0.kernel.caps := by
  have h := drop_all_succeed envOk "cap_net_raw".toList [] [13] w0 (fun _ => rfl) (fun _ => rfl)
    (fun _ => rfl) (fun _ => ⟨rfl, rfl⟩) (by decide)
  have hb : (drop_directive envOk "--drop=cap_net_raw".toList [] w0).1.kernel.bset
      = w0.kernel.bset \ [13].toFinset := h.2.1
  refine ⟨h.1, ?_, h.2.2⟩
  rw [hb]
  decide

/-- C5: for every `--drop` list whose tokens are `pre`, then a name `bad` the
codec cannot resolve, then `post`, with every name of `pre` resolving, and for
every outcome of the calls: the process exits with status 1; the log of the
directive is a part `done` in which only names of `pre` are looked up and
dropped (in order), either alone (a call for a name before `bad` failed) or
followed by just the failed lookup of `bad` and the diagnostic naming it, so no
install or drop is issued for `bad` and no name of `post` is processed; the
bounding set is the prior one minus the ids dropped in `done`; and when every
call succeeds the exit is the one at `bad`, with all of `pre` dropped. -/
theorem drop_unknown_name (env : Env) (names : CStr) (tail : Mem) (pre post : List CStr)
    (bad : CStr) (ids : List Nat) (w : World)
    (htok : strtok_all names = pre ++ bad :: post)
    (hpre : pre.map env.cap_from_name = ids.map some)
    (hbad : env.cap_from_name bad = none) :
    (drop_directive env ("--drop=".toList ++ names) tail w).2 = .exited 1
    ∧ ∃ done : List Event,
        ((drop_directive env ("--drop=".toList ++ names) tail w).1.events = w.events ++ done
          ∨ (drop_directive env ("--drop=".toList ++ names) tail w).1.events = w.events ++ done ++
              [.fromName bad none, .stderr "capability [%s] is unknown to libcap\n" [.str bad]])
        ∧ lookups done <+: pre ∧ dropCalls done <+: ids ∧ dropsDone done <+: dropCalls done
        ∧ (drop_directive env ("--drop=".toList ++ names) tail w).1.kernel.bset
            = w.kernel.bset \ (dropsDone done).toFinset
        ∧ ((∀ n, env.getProcOk n = true ∧ env.dupOk n = true ∧ env.setFlagOk n = true
              ∧ env.setProcOk n = true ∧ env.bsetDropOk n = true) →
            (drop_directive env ("--drop=".toList ++ names) tail w).1.events = w.events ++ done ++
              [.fromName bad none, .stderr "capability [%s] is unknown to libcap\n" [.str bad]]
            ∧ dropsDone done = ids ∧ lookups done = pre) := by
  rcases h0 : env.getProcOk w.clock with _ | _
  · refine ⟨by simp [drop_directive, cap_get_proc, h0],
      [.getProc none, .perror "Capabilities not available"], ?_⟩
    simp [drop_directive, cap_get_proc, h0, lookups, dropCalls, dropsDone]
    exact ⟨w.clock, by simp [h0]⟩
  rcases h1 : env.dupOk (w.clock + 1) with _ | _
  · refine ⟨by simp [drop_directive, cap_get_proc, cap_dup, h0, h1],
      [.getProc (some w.kernel.caps), .dup none,
        .stderr "BSET modification requires CAP_SETPCAP\n" []], ?_⟩
    simp [drop_directive, cap_get_proc, cap_dup, h0, h1, lookups, dropCalls, dropsDone]
    exact ⟨w.clock + 1, by simp [h1]⟩
  rcases h2 : env.setFlagOk (w.clock + 1 + 1) with _ | _
  · refine ⟨by simp [drop_directive, cap_get_proc, cap_dup, cap_set_flag, h0, h1, h2],
      [.getProc (some w.kernel.caps), .dup (some w.kernel.caps), .setFlag CAP_SETPCAP false,
        .perror "unable to select CAP_SETPCAP"], ?_⟩
    simp [drop_directive, cap_get_proc, cap_dup, cap_set_flag, h0, h1, h2, lookups, dropCalls,
      dropsDone]
    exact ⟨w.clock + 1 + 1, by simp [h2]⟩
  rw [drop_directive_setup_ok env _ tail w h0 h1 h2, offset_drop, htok, drop_loop_append]
  obtain ⟨new, hnew, hl, hd, hdd, -, hb, hout, hrun, hok⟩ := drop_loop_summary env w.kernel.caps
    (raised_setpcap w.kernel.caps) pre ids (afterSetup CAP_SETPCAP w) hpre
  have hl2 : lookups ([.getProc (some w.kernel.caps), .dup (some w.kernel.caps),
      .setFlag CAP_SETPCAP true] ++ new) <+: pre := by simpa [lookups] using hl
  have hd2 : dropCalls ([.getProc (some w.kernel.caps), .dup (some w.kernel.caps),
      .setFlag CAP_SETPCAP true] ++ new) <+: ids := by simpa [dropCalls] using hd
  have hdd2 : dropsDone ([.getProc (some w.kernel.caps), .dup (some w.kernel.caps),
      .setFlag CAP_SETPCAP true] ++ new) <+: dropCalls ([.getProc (some w.kernel.caps),
      .dup (some w.kernel.caps), .setFlag CAP_SETPCAP true] ++ new) := by
    simpa [dropCalls, dropsDone] using hdd
  have hdn : dropsDone ([.getProc (some w.kernel.caps), .dup (some w.kernel.caps),
      .setFlag CAP_SETPCAP true] ++ new) = dropsDone new := by simp [dropsDone]
  have hln : lookups ([.getProc (some w.kernel.caps), .dup (some w.kernel.caps),
      .setFlag CAP_SETPCAP true] ++ new) = lookups new := by simp [lookups]
  rcases hout with hr | hr
  · rw [if_pos hr]
    refine ⟨by simp [drop_loop, hbad], _, Or.inr ?_, hl2, hd2, hdd2, ?_, ?_⟩
    · simp [drop_loop, hbad, hnew, afterSetup_events]
    · simp [drop_loop, hbad, hb, afterSetup_kernel, dropsDone]
    · intro _
      refine ⟨?_, ?_, ?_⟩
      · simp [drop_loop, hbad, hnew, afterSetup_events]
      · rw [hdn]; exact (hrun hr).1
      · rw [hln]; exact (hrun hr).2
  · have hnr : ¬ (drop_loop env w.kernel.caps (raised_setpcap w.kernel.caps) pre
        (afterSetup CAP_SETPCAP w)).2 = .running := by rw [hr]; simp
    rw [if_neg hnr]
    refine ⟨hr, _, Or.inl ?_, hl2, hd2, hdd2, ?_, ?_⟩
    · rw [hnew, afterSetup_events, List.append_assoc]
    · rw [hb, hdn, afterSetup_kernel]
    · intro h
      exact absurd (hok (fun n => ⟨(h n).2.2.2.1, (h n).2.2.2.2⟩)) hnr


/-- C5 (witness): with `cap_chown,notarealcap,cap_net_raw` only CHOWN leaves the
bounding set before the exit; with `notarealcap` alone the bounding set is
unaltered. -/
theorem drop_unknown_name_witness :
    ((drop_directive envOk "--drop=cap_chown,notarealcap,cap_net_raw".toList [] w0).2 = .exited 1
      ∧ (drop_directive envOk "--drop=cap_chown,notarealcap,cap_net_raw".toList []
          w0).1.kernel.bset = {18, 8, 13})
    ∧ ((drop_directive envOk "--drop=notarealcap".toList [] w0).2 = .exited 1
      ∧ (drop_directive envOk "--drop=notarealcap".toList [] w0).1.kernel.bset
          = w0.kernel.bset) := by
  constructor
  · obtain ⟨h1, done, -, -, -, -, hb, hall⟩ := drop_unknown_name envOk
      "cap_chown,notarealcap,cap_net_raw".toList [] ["cap_chown".toList] ["cap_net_raw".toList]
      "notarealcap".toList [0] w0 (by decide) (by decide) (by decide)
    have hd := (hall (fun _ => ⟨rfl, rfl, rfl, rfl, rfl⟩)).2.1
    have hb2 : (drop_directive envOk "--drop=cap_chown,notarealcap,cap_net_raw".toList []
        w0).1.kernel.bset = w0.kernel.bset \ (dropsDone done).toFinset := hb
    refine ⟨h1, ?_⟩
    rw [hb2, hd]
    decide
  · obtain ⟨h1, done, -, -, hd, hdd, hb, -⟩ := drop_unknown_name envOk
      "notarealcap".toList [] [] [] "notarealcap".toList [] w0 (by decide) (by decide) (by decide)
    have hb2 : (drop_directive envOk "--drop=notarealcap".toList [] w0).1.kernel.bset
        = w0.kernel.bset \ (dropsDone done).toFinset := hb
    refine ⟨h1, ?_⟩
    rw [List.prefix_nil.1 hd] at hdd
    rw [hb2, List.prefix_nil.1 hdd]
    simp

/-! ## C3: the bounding set never grows -/

/-- The `--drop` loop never adds to the bounding set. -/
theorem drop_loop_bset (env : Env) (orig raised : CapState) (names : List CStr) :
    ∀ w : World, (drop_loop env orig raised names w).1.kernel.bset ⊆ w.kernel.bset := by
  induction names with
  | nil => intro w; simp [drop_loop]
  | cons ptr rest ih =>
    intro w
    rcases hc : env.cap_from_name ptr with _ | c
    · simp [drop_loop, hc]
    · rcases h1 : env.setProcOk (w.clock + 1) with _ | _
      · simp [drop_loop, cap_set_proc, hc, h1]
      · rcases h2 : env.bsetDropOk (w.clock + 1 + 1) with _ | _ <;>
        rcases h3 : env.setProcOk (w.clock + 1 + 1 + 1) with _ | _
        · simp [drop_loop, cap_set_proc, prctl_capbset_drop, hc, h1, h2, h3]
        · simp [drop_loop, cap_set_proc, prctl_capbset_drop, hc, h1, h2, h3]
        · simp [drop_loop, cap_set_proc, prctl_capbset_drop, hc, h1, h2, h3]
          exact Finset.erase_subset _ _
        · rw [drop_loop_cons_ok env orig raised ptr rest c w hc h1 h2 h3]
          exact (ih _).trans (by simp [afterDrop_kernel, Finset.erase_subset])

theorem drop_directive_bset (env : Env) (arg : CStr) (tail : Mem) (w : World) :
    (drop_directive env arg tail w).1.kernel.bset ⊆ w.kernel.bset := by
  rcases h0 : env.getProcOk w.clock with _ | _
  · simp [drop_directive, cap_get_proc, h0]
  rcases h1 : env.dupOk (w.clock + 1) with _ | _
  · simp [drop_directive, cap_get_proc, cap_dup, h0, h1]
  rcases h2 : env.setFlagOk (w.clock + 1 + 1) with _ | _
  · simp [drop_directive, cap_get_proc, cap_dup, cap_set_flag, h0, h1, h2]
  rw [drop_directive_setup_ok env arg tail w h0 h1 h2]
  exact (drop_loop_bset env _ _ _ _).trans (by simp [afterSetup_kernel])

theorem chroot_directive_bset (env : Env) (arg : CStr) (tail : Mem) (w : World) :
    (chroot_directive env arg tail w).1.kernel.bset = w.kernel.bset := by
  rcases h0 : env.getProcOk w.clock with _ | _ <;>
  rcases h1 : env.dupOk (w.clock + 1) with _ | _ <;>
  rcases h2 : env.setFlagOk (w.clock + 1 + 1) with _ | _ <;>
  rcases h3 : env.setProcOk (w.clock + 1 + 1 + 1) with _ | _ <;>
  rcases h4 : env.chrootOk (w.clock + 1 + 1 + 1 + 1) with _ | _ <;>
  rcases h5 : env.setProcOk (w.clock + 1 + 1 + 1 + 1 + 1) with _ | _ <;>
  simp [chroot_directive, cap_get_proc, cap_dup, cap_set_flag, cap_set_proc, chroot,
    h0, h1, h2, h3, h4, h5]

/-- After line 104 `raised_for_setpcap` is NULL, whatever `cap_dup` returned. -/
theorem inh_build_raised_none (env : Env) (all : CapState) (w : World) :
    (inh_build_raised env all w).1 = none := by
  rcases h1 : env.dupOk w.clock with _ | _ <;>
  simp [inh_build_raised, cap_dup, cap_set_flag_null, h1]

theorem inh_build_raised_kernel (env : Env) (all : CapState) (w : World) :
    (inh_build_raised env all w).2.kernel = w.kernel := by
  rcases h1 : env.dupOk w.clock with _ | _ <;>
  simp [inh_build_raised, cap_dup, cap_set_flag_null, h1]

/-- The write of line 116 never fits the block of line 111. -/
theorem inh_overruns (text names : CStr) :
    ¬ ((inh_merged_text text names).length + 1 ≤ inh_alloc_size names text) := by
  simp [inh_merged_text, inh_alloc_size]
  omega

theorem inh_finish_bset (env : Env) (r : Option CapState) (ptr : CStr) (w : World) :
    (inh_finish env r ptr w).1.kernel.bset = w.kernel.bset := by
  rcases hf : env.cap_from_text ptr with _ | all
  · simp [inh_finish, hf]
  · cases r with
    | none =>
      rcases hs : env.setProcOk (w.clock + 1) with _ | _ <;>
      simp [inh_finish, hf, cap_set_proc, hs]
    | some raised =>
      rcases h1 : env.setProcOk (w.clock + 1) with _ | _ <;>
      rcases hs : env.setProcOk (w.clock + 1 + 1) with _ | _ <;>
      simp [inh_finish, hf, cap_set_proc, h1, hs]

theorem inh_directive_bset (env : Env) (arg : CStr) (tail : Mem) (w : World) :
    (inh_directive env arg tail w).1.kernel.bset = w.kernel.bset := by
  rcases h0 : env.getProcOk w.clock with _ | _
  · simp [inh_directive, cap_get_proc, h0]
  simp only [inh_directive, cap_get_proc, h0]
  simp only [if_true]
  generalize hb : inh_build_raised env w.kernel.caps (w.emit (.getProc (some w.kernel.caps)) w.kernel) = b
  obtain ⟨r, wb⟩ := b
  have hk : wb.kernel = w.kernel := by
    have := inh_build_raised_kernel env w.kernel.caps (w.emit (.getProc (some w.kernel.caps)) w.kernel)
    rw [hb] at this; simpa using this
  simp only []
  rcases ht : env.cap_to_text w.kernel.caps with _ | text
  · simp [hk]
  rcases hm : env.mallocOk (wb.clock + 1) with _ | _
  · simp [hm, hk]
  simp only [emit_clock, hm, Bool.true_eq_false, if_false]
  split_ifs
  · simp [inh_finish_bset, hk]
  · split <;> simp [inh_finish_bset, hk]


theorem print_loop_kernel (env : Env) :
    ∀ (fuel cap : Nat) (sep : CStr) (w : World),
      (print_loop env fuel cap sep w).kernel = w.kernel := by
  intro fuel
  induction fuel with
  | zero => intro cap sep w; simp [print_loop]
  | succ fuel ih =>
    intro cap sep w
    simp only [print_loop]
    split_ifs
    · rfl
    · exact ih _ _ _
    · rw [ih]
      cases env.cap_to_name cap <;> simp

theorem print_directive_kernel (env : Env) (w : World) :
    (print_directive env w).1.kernel = w.kernel := by
  simp [print_directive, cap_get_proc, print_loop_kernel]

/-- One query more than the ids left to walk changes nothing. -/
theorem print_loop_fuel (env : Env) :
    ∀ (fuel cap : Nat) (sep : CStr) (w : World), w.kernel.ncaps < cap + fuel →
      print_loop env (fuel + 1) cap sep w = print_loop env fuel cap sep w := by
  intro fuel
  induction fuel with
  | zero =>
    intro cap sep w h
    have hr : prctl_capbset_read w.kernel cap = -1 := by
      simp only [prctl_capbset_read]
      rw [if_neg (by omega)]
    simp [print_loop, hr]
  | succ fuel ih =>
    intro cap sep w h
    rw [print_loop]
    conv_rhs => rw [print_loop]
    simp only
    split_ifs
    · rfl
    · exact ih _ _ _ (by omega)
    · cases env.cap_to_name cap <;> exact ih _ _ _ (by simp; omega)

/-- The walk of `--print` ends on the `-1` answer of the kernel: more queries
than the `ncaps + 1` it is given change nothing. -/
theorem print_loop_enough_fuel (env : Env) (w : World) (k : Nat) :
    print_loop env (w.kernel.ncaps + 1 + k) 0 [] w = print_loop env (w.kernel.ncaps + 1) 0 [] w := by
  induction k with
  | zero => rfl
  | succ k ih => rw [← ih, ← Nat.add_assoc, print_loop_fuel env _ 0 [] w (by omega)]

theorem exec_directive_kernel (env : Env) (rest : List CStr) (w : World) :
    (exec_directive env rest w).1.kernel = w.kernel := by
  rcases h : env.execveOk w.clock with _ | _ <;> simp [exec_directive, h]

/-- The argument loop never adds to the bounding set. -/
theorem main_loop_bset (env : Env) (argv0 : Nat) (args : List Nat) :
    ∀ (mem : Mem) (w : World),
      (main_loop env argv0 args mem w).1.kernel.bset ⊆ w.kernel.bset := by
  induction args with
  | nil => intro mem w; simp [main_loop]
  | cons p rest ih =>
    intro mem w
    simp only [main_loop]
    split_ifs
    · have h := drop_directive_bset env (cstr mem p)
        (mem.drop (p + (cstr mem p).length + 1)) w
      split
      · next w1 heq => rw [heq] at h; exact (ih _ w1).trans h
      · exact h
    · have h := inh_directive_bset env (cstr mem p)
        (mem.drop (p + (cstr mem p).length + 1)) w
      split
      · next w1 heq => rw [heq] at h; exact (ih _ w1).trans (by simp_all)
      · simp [h]
    · have h := chroot_directive_bset env (cstr mem p)
        (mem.drop (p + (cstr mem p).length + 1)) w
      split
      · next w1 heq => rw [heq] at h; exact (ih _ w1).trans (by simp_all)
      · simp [h]
    · have h := print_directive_kernel env w
      split
      · next w1 heq => rw [heq] at h; exact (ih _ w1).trans (by simp_all)
      · simp [h]
    · simp [exec_directive_kernel]
    all_goals simp

/-- C3: for every sequence of arguments, whatever follows them in memory, every
prior state and every outcome of the calls, whether the program ends normally,
exits part-way, is killed or hands over to the shell, the bounding set at the
end is a subset of the bounding set at the start. -/
theorem main_bset_subset (env : Env) (argv after : List CStr) (w : World) :
    (main env argv after w).1.kernel.bset ⊆ w.kernel.bset :=
  main_loop_bset env _ _ _ w

/-! ## C7: the text merge of the `--inh` directive -/

theorem fields_ne_nil (d : Char) (s : CStr) : fields d s ≠ [] := by
  induction s with
  | nil => simp [fields]
  | cons c cs ih =>
    simp only [fields]
    split_ifs
    · simp
    · split <;> simp

/-- Splitting at a delimiter distributes over a delimiter in the middle. -/
theorem fields_append (d : Char) (c : CStr) :
    ∀ t : CStr, fields d (t ++ d :: c) = fields d t ++ fields d c := by
  intro t
  induction t with
  | nil => simp [fields]
  | cons x t ih =>
    simp only [List.cons_append, fields, List.append_eq]
    rw [ih]
    split_ifs
    · simp
    · rcases hf : fields d t with _ | ⟨f, fs⟩
      · exact absurd hf (fields_ne_nil d t)
      · simp

theorem fields_no_delim (d : Char) : ∀ c : CStr, d ∉ c → fields d c = [c] := by
  intro c
  induction c with
  | nil => simp [fields]
  | cons x c ih =>
    intro h
    simp only [List.mem_cons, not_or] at h
    simp only [fields]
    rw [if_neg (fun e => h.1 e.symm), ih h.2]

/-- The clause codec applies a clause appended after a blank to the state denoted
by the text before it. -/
theorem decode4_snoc (t c : CStr) (hc : c ≠ []) (hsp : ' ' ∉ c) :
    decode4 (t ++ ' ' :: c) = stepClause (decode4 t) c := by
  simp [decode4, fields_append, fields_no_delim ' ' c hsp, hc, List.filter_append,
    List.foldl_append]

theorem decode4_clear (t : CStr) (s : CapState) (h : decode4 t = some s) :
    decode4 (t ++ " all-i".toList) = some { s with inheritable := ∅ } := by
  have hp : parseClause "all-i".toList = some ⟨.all, '-', false, true, false⟩ := by decide
  have e : t ++ " all-i".toList = t ++ ' ' :: "all-i".toList := rfl
  rw [e, decode4_snoc t _ (by decide) (by decide), h, stepClause, Option.some_bind, hp]
  simp [applyClause, CapList.lower]

theorem decode4_raise (t : CStr) (s : CapState) (h : decode4 t = some s) :
    decode4 (t ++ ' ' :: ("cap_setpcap,cap_net_raw".toList ++ "+i".toList))
      = some { s with inheritable := s.inheritable ∪ {8, 13} } := by
  have hp : parseClause ("cap_setpcap,cap_net_raw".toList ++ "+i".toList)
      = some ⟨.ids {8, 13}, '+', false, true, false⟩ := by decide
  rw [decode4_snoc t _ (by decide) (by decide), h, stepClause, Option.some_bind, hp]
  simp [applyClause, CapList.raise]


theorem offset_inh (names : CStr) (tail : Mem) :
    offset ("--inh=".toList ++ names) tail 6 = names := by
  simp [offset]

theorem merged_text_split (text names : CStr) :
    inh_merged_text text names = (text ++ " all-i".toList) ++ ' ' :: (names ++ "+i".toList) := by
  have e : " all-i ".toList = " all-i".toList ++ [' '] := rfl
  simp [inh_merged_text, e]

/-- The text merge in a run where the overrun of line 116 does no harm: the
decoder is handed exactly `<encoded current state> all-i <requested names>+i`,
and under a codec that applies clauses left to right (appending ` all-i` to a
text clears Inheritable of the state the text denotes, appending ` <names>+i`
adds the requested set `req` to it), for every current state that the codec
encodes and decodes back, the one state the directive installs has Inheritable
exactly `req`, with Effective and Permitted those of the state before. -/
theorem inh_text_merge_when_harmless (env : Env) (names text : CStr) (tail : Mem)
    (req : Finset Nat) (w : World)
    (hget : env.getProcOk w.clock = true)
    (hmalloc : ∀ n, env.mallocOk n = true)
    (hharm : ∀ n, env.overrun n = .harmless)
    (htext : env.cap_to_text w.kernel.caps = some text)
    (hround : env.cap_from_text text = some w.kernel.caps)
    (hclear : ∀ t s, env.cap_from_text t = some s →
      env.cap_from_text (t ++ " all-i".toList) = some { s with inheritable := ∅ })
    (hraise : ∀ t s, env.cap_from_text t = some s →
      env.cap_from_text (t ++ ' ' :: (names ++ "+i".toList))
        = some { s with inheritable := s.inheritable ∪ req }) :
    ∃ (pre : List Event) (ok : Bool),
      (inh_directive env ("--inh=".toList ++ names) tail w).1.events
        = w.events ++ pre ++
          [.toText (some w.kernel.caps) (some text),
           .malloc (inh_alloc_size names text) true,
           .sprintf (text ++ " all-i ".toList ++ names ++ "+i".toList),
           .fromText (text ++ " all-i ".toList ++ names ++ "+i".toList)
             (some { w.kernel.caps with inheritable := req }),
           .setProc { w.kernel.caps with inheritable := req } ok]
          ++ (if ok then [] else [.perror "Unable to set inheritable capabilities"])
      ∧ installs pre = []
      ∧ (inh_directive env ("--inh=".toList ++ names) tail w).2
          = (if ok then .running else .exited 1)
      ∧ (inh_directive env ("--inh=".toList ++ names) tail w).1.kernel.caps
          = (if ok then { w.kernel.caps with inheritable := req } else w.kernel.caps) := by
  have hdec : env.cap_from_text (inh_merged_text text names)
      = some { w.kernel.caps with inheritable := req } := by
    rw [merged_text_split, hraise _ _ (hclear _ _ hround)]
    simp
  have hmt : text ++ " all-i ".toList ++ names ++ "+i".toList = inh_merged_text text names := rfl
  rw [hmt]
  have hov := inh_overruns text names
  have hoff := offset_inh names tail
  generalize "--inh=".toList ++ names = arg at hoff ⊢
  rcases hd : env.dupOk (w.clock + 1) with _ | _
  · rcases hs : env.setProcOk (w.clock + 1 + 1 + 1 + 1 + 1 + 1 + 1) with _ | _
    · refine ⟨[.getProc (some w.kernel.caps), .dup none, .setFlag CAP_SETPCAP false], false, ?_⟩
      simp [inh_directive, inh_finish, inh_build_raised, cap_get_proc, cap_dup,
        cap_set_flag_null, cap_set_proc, hget, hd, htext, hmalloc, hharm, hov, hdec, hs, hoff,
        installs]
    · refine ⟨[.getProc (some w.kernel.caps), .dup none, .setFlag CAP_SETPCAP false], true, ?_⟩
      simp [inh_directive, inh_finish, inh_build_raised, cap_get_proc, cap_dup,
        cap_set_flag_null, cap_set_proc, hget, hd, htext, hmalloc, hharm, hov, hdec, hs, hoff,
        installs]
  · rcases hs : env.setProcOk (w.clock + 1 + 1 + 1 + 1 + 1 + 1) with _ | _
    · refine ⟨[.getProc (some w.kernel.caps), .dup (some w.kernel.caps)], false, ?_⟩
      simp [inh_directive, inh_finish, inh_build_raised, cap_get_proc, cap_dup,
        cap_set_flag_null, cap_set_proc, hget, hd, htext, hmalloc, hharm, hov, hdec, hs, hoff,
        installs]
    · refine ⟨[.getProc (some w.kernel.caps), .dup (some w.kernel.caps)], true, ?_⟩
      simp [inh_directive, inh_finish, inh_build_raised, cap_get_proc, cap_dup,
        cap_set_flag_null, cap_set_proc, hget, hd, htext, hmalloc, hharm, hov, hdec, hs, hoff,
        installs]

/-- The text merge at work when the overrun does no harm: with Inheritable
{CHOWN, SETPCAP} and the request `cap_setpcap,cap_net_raw`, under the clause
codec, Inheritable becomes exactly {SETPCAP, NET_RAW} and Effective and
Permitted are unchanged. -/
theorem inh_text_merge_example :
    (inh_directive envCodec "--inh=cap_setpcap,cap_net_raw".toList [] wInh).2 = .running
    ∧ (inh_directive envCodec "--inh=cap_setpcap,cap_net_raw".toList [] wInh).1.kernel.caps
        = ⟨∅, {0, 8, 13}, {8, 13}⟩
    ∧ Event.fromText
        "= cap_chown+ip cap_setpcap+ip cap_net_raw+p all-i cap_setpcap,cap_net_raw+i".toList
        (some ⟨∅, {0, 8, 13}, {8, 13}⟩)
        ∈ (inh_directive envCodec "--inh=cap_setpcap,cap_net_raw".toList [] wInh).1.events := by
  obtain ⟨pre, ok, -, -, hout, hcaps⟩ := inh_text_merge_when_harmless envCodec
    "cap_setpcap,cap_net_raw".toList "= cap_chown+ip cap_setpcap+ip cap_net_raw+p".toList []
    {8, 13} wInh rfl (fun _ => rfl) (fun _ => rfl) (by decide) (by decide) decode4_clear
    decode4_raise
  have hrun : (inh_directive envCodec "--inh=cap_setpcap,cap_net_raw".toList [] wInh).2
      = .running := by decide
  have hok : ok = true := by
    cases ok
    · rw [show (inh_directive envCodec ("--inh=".toList ++ "cap_setpcap,cap_net_raw".toList) []
        wInh).2 = .running from hrun] at hout
      simp at hout
    · rfl
  subst hok
  exact ⟨hrun, hcaps, by decide⟩

/-- C7 (at the failing input): the request `cap_setpcap,cap_net_raw` with
Inheritable {CHOWN, SETPCAP}, under the clause codec.  Line 111 allocates 70
bytes and line 116 writes 76.  When the overrun makes the allocator kill the
process, nothing is decoded or installed and Inheritable stays {CHOWN,
SETPCAP}; when the block reads back damaged past its 72nd byte, the decoder is
handed a text that is not `<encoded state> all-i <names>+i`, decoding fails, and
the process exits with status 1 with nothing installed. -/
theorem inh_overrun_defeats_merge :
    ((inh_directive envCodecAbort "--inh=cap_setpcap,cap_net_raw".toList [] wInh).2 = .aborted
      ∧ (inh_directive envCodecAbort "--inh=cap_setpcap,cap_net_raw".toList [] wInh).1.events =
          [.getProc (some ⟨∅, {0, 8, 13}, {0, 8}⟩), .dup (some ⟨∅, {0, 8, 13}, {0, 8}⟩),
           .toText (some ⟨∅, {0, 8, 13}, {0, 8}⟩)
             (some "= cap_chown+ip cap_setpcap+ip cap_net_raw+p".toList),
           .malloc 70 true,
           .sprintf
             "= cap_chown+ip cap_setpcap+ip cap_net_raw+p all-i cap_setpcap,cap_net_raw+i".toList]
      ∧ (inh_directive envCodecAbort "--inh=cap_setpcap,cap_net_raw".toList []
          wInh).1.kernel.caps.inheritable = {0, 8})
    ∧ ((inh_directive envCodecGarbled "--inh=cap_setpcap,cap_net_raw".toList [] wInh).2
          = .exited 1
      ∧ (inh_directive envCodecGarbled "--inh=cap_setpcap,cap_net_raw".toList []
          wInh).1.events.getLast? = some (.perror "Fatal error internalizing capabilities")
      ∧ installs (inh_directive envCodecGarbled "--inh=cap_setpcap,cap_net_raw".toList []
          wInh).1.events = []
      ∧ (inh_directive envCodecGarbled "--inh=cap_setpcap,cap_net_raw".toList []
          wInh).1.kernel.caps.inheritable = {0, 8}) := by
  decide

/-- C7 (a second failing input): the empty request `--inh=`, with an overrun
that does no harm.  The merged text ends in the clause `+i` without a name,
which the clause codec, like libcap's, refuses: the process exits with status
1 and Inheritable is not cleared. -/
theorem inh_empty_request_rejected :
    (inh_directive envCodec "--inh=".toList [] wInh).2 = .exited 1
    ∧ (inh_directive envCodec "--inh=".toList [] wInh).1.events.getLast?
        = some (.perror "Fatal error internalizing capabilities")
    ∧ installs (inh_directive envCodec "--inh=".toList [] wInh).1.events = []
    ∧ (inh_directive envCodec "--inh=".toList [] wInh).1.kernel.caps.inheritable = {0, 8} := by
  decide

/-! ## C8: the elevation of the `--inh` directive -/

/-- A part of the log without installs and without a successful `cap_set_flag`
can be put in front. -/
theorem InhShape_append (pre new : List Event)
    (hflag : Event.setFlag CAP_SETPCAP true ∉ pre) (hinst : installs pre = [])
    (h : InhShape new) : InhShape (pre ++ new) := by
  obtain ⟨h1, h2, h3⟩ := h
  refine ⟨by simp [hflag, h1], ?_, ?_⟩
  · simpa [installs, List.filterMap_append] using (by
      have e : installs (pre ++ new) = installs new := by
        simp only [installs, List.filterMap_append] at hinst ⊢
        rw [hinst, List.nil_append]
      rw [e]; exact h2 : (installs (pre ++ new)).length ≤ 1)
  · intro st hst
    have e : installs (pre ++ new) = installs new := by
      simp only [installs, List.filterMap_append] at hinst ⊢
      rw [hinst, List.nil_append]
    rw [e] at hst
    obtain ⟨t, ht⟩ := h3 st hst
    exact ⟨t, List.mem_append_right _ ht⟩

/-- The log of the `--inh` branch from the decoding on, without a duplicate to
install: at most one install, of the state the decoder returned. -/
theorem inh_finish_shape (env : Env) (ptr : CStr) (w : World) :
    ∃ new : List Event,
      (inh_finish env none ptr w).1.events = w.events ++ new ∧ InhShape new := by
  rcases hf : env.cap_from_text ptr with _ | all
  · exact ⟨[.fromText ptr none, .perror "Fatal error internalizing capabilities"],
      by simp [inh_finish, hf], by simp [InhShape, installs]⟩
  rcases hs : env.setProcOk (w.clock + 1) with _ | _
  · exact ⟨[.fromText ptr (some all), .setProc all false,
      .perror "Unable to set inheritable capabilities"],
      by simp [inh_finish, hf, cap_set_proc, hs], by simp [InhShape, installs]⟩
  · exact ⟨[.fromText ptr (some all), .setProc all true],
      by simp [inh_finish, hf, cap_set_proc, hs], by simp [InhShape, installs]⟩

/-- The log of the `--inh` directive, for every outcome of the calls: no successful
`cap_set_flag`, at most one install, and only of a state the decoder returned. -/
theorem inh_events_shape (env : Env) (arg : CStr) (tail : Mem) (w : World) :
    ∃ new : List Event,
      (inh_directive env arg tail w).1.events = w.events ++ new ∧ InhShape new := by
  rcases h0 : env.getProcOk w.clock with _ | _
  · exact ⟨[.getProc none, .perror "Capabilities not available"],
      by simp [inh_directive, cap_get_proc, h0], by simp [InhShape, installs]⟩
  rcases hd : env.dupOk (w.clock + 1) with _ | _
  · rcases ht : env.cap_to_text w.kernel.caps with _ | text
    · exact ⟨[.getProc (some w.kernel.caps), .dup none, .setFlag CAP_SETPCAP false,
        .toText (some w.kernel.caps) none,
        .perror "Fatal error concerning process capabilities"],
        by simp [inh_directive, inh_build_raised, cap_get_proc, cap_dup, cap_set_flag_null,
          h0, hd, ht],
        by simp [InhShape, installs]⟩
    rcases hm : env.mallocOk (w.clock + 1 + 1 + 1 + 1) with _ | _
    · exact ⟨[.getProc (some w.kernel.caps), .dup none, .setFlag CAP_SETPCAP false,
        .toText (some w.kernel.caps) (some text),
        .malloc (inh_alloc_size (offset arg tail 6) text) false,
        .perror "Out of memory for inh set\n"],
        by simp [inh_directive, inh_build_raised, cap_get_proc, cap_dup, cap_set_flag_null,
          h0, hd, ht, hm],
        by simp [InhShape, installs]⟩
    have hov := inh_overruns text (offset arg tail 6)
    have hpre : InhShape ([.getProc (some w.kernel.caps), .dup none, .setFlag CAP_SETPCAP false,
        .toText (some w.kernel.caps) (some text),
        .malloc (inh_alloc_size (offset arg tail 6) text) true,
        .sprintf (inh_merged_text text (offset arg tail 6))]) := by
      simp [InhShape, installs]
    rcases ho : env.overrun (w.clock + 1 + 1 + 1 + 1 + 1 + 1) with _ | read | _
    · obtain ⟨new, hnew, hs⟩ := inh_finish_shape env (inh_merged_text text (offset arg tail 6))
        ((((((w.emit (.getProc (some w.kernel.caps)) w.kernel).emit (.dup none) w.kernel).emit
          (.setFlag CAP_SETPCAP false) w.kernel).emit
          (.toText (some w.kernel.caps) (some text)) w.kernel).emit
          (.malloc (inh_alloc_size (offset arg tail 6) text) true) w.kernel).emit
          (.sprintf (inh_merged_text text (offset arg tail 6))) w.kernel)
      refine ⟨_ ++ new, ?_, InhShape_append _ _ hpre.1 (by simp [installs]) hs⟩
      simp [inh_directive, inh_build_raised, cap_get_proc, cap_dup, cap_set_flag_null,
        h0, hd, ht, hm, ho, hov, hnew]
    · obtain ⟨new, hnew, hs⟩ := inh_finish_shape env read
        ((((((w.emit (.getProc (some w.kernel.caps)) w.kernel).emit (.dup none) w.kernel).emit
          (.setFlag CAP_SETPCAP false) w.kernel).emit
          (.toText (some w.kernel.caps) (some text)) w.kernel).emit
          (.malloc (inh_alloc_size (offset arg tail 6) text) true) w.kernel).emit
          (.sprintf (inh_merged_text text (offset arg tail 6))) w.kernel)
      refine ⟨_ ++ new, ?_, InhShape_append _ _ hpre.1 (by simp [installs]) hs⟩
      simp [inh_directive, inh_build_raised, cap_get_proc, cap_dup, cap_set_flag_null,
        h0, hd, ht, hm, ho, hov, hnew]
    · exact ⟨_, by
        simp [inh_directive, inh_build_raised, cap_get_proc, cap_dup, cap_set_flag_null,
          h0, hd, ht, hm, ho, hov], hpre⟩
  · rcases ht : env.cap_to_text w.kernel.caps with _ | text
    · exact ⟨[.getProc (some w.kernel.caps), .dup (some w.kernel.caps),
        .toText (some w.kernel.caps) none,
        .perror "Fatal error concerning process capabilities"],
        by simp [inh_directive, inh_build_raised, cap_get_proc, cap_dup, cap_set_flag_null,
          h0, hd, ht],
        by simp [InhShape, installs]⟩
    rcases hm : env.mallocOk (w.clock + 1 + 1 + 1) with _ | _
    · exact ⟨[.getProc (some w.kernel.caps), .dup (some w.kernel.caps),
        .toText (some w.kernel.caps) (some text),
        .malloc (inh_alloc_size (offset arg tail 6) text) false,
        .perror "Out of memory for inh set\n"],
        by simp [inh_directive, inh_build_raised, cap_get_proc, cap_dup, cap_set_flag_null,
          h0, hd, ht, hm],
        by simp [InhShape, installs]⟩
    have hov := inh_overruns text (offset arg tail 6)
    have hpre : InhShape ([.getProc (some w.kernel.caps), .dup (some w.kernel.caps),
        .toText (some w.kernel.caps) (some text),
        .malloc (inh_alloc_size (offset arg tail 6) text) true,
        .sprintf (inh_merged_text text (offset arg tail 6))]) := by
      simp [InhShape, installs]
    rcases ho : env.overrun (w.clock + 1 + 1 + 1 + 1 + 1) with _ | read | _
    · obtain ⟨new, hnew, hs⟩ := inh_finish_shape env (inh_merged_text text (offset arg tail 6))
        (((((w.emit (.getProc (some w.kernel.caps)) w.kernel).emit (.dup (some w.kernel.caps)) w.kernel).emit
          (.toText (some w.kernel.caps) (some text)) w.kernel).emit
          (.malloc (inh_alloc_size (offset arg tail 6) text) true) w.kernel).emit
          (.sprintf (inh_merged_text text (offset arg tail 6))) w.kernel)
      refine ⟨_ ++ new, ?_, InhShape_append _ _ hpre.1 (by simp [installs]) hs⟩
      simp [inh_directive, inh_build_raised, cap_get_proc, cap_dup, cap_set_flag_null,
        h0, hd, ht, hm, ho, hov, hnew]
    · obtain ⟨new, hnew, hs⟩ := inh_finish_shape env read
        (((((w.emit (.getProc (some w.kernel.caps)) w.kernel).emit (.dup (some w.kernel.caps)) w.kernel).emit
          (.toText (some w.kernel.caps) (some text)) w.kernel).emit
          (.malloc (inh_alloc_size (offset arg tail 6) text) true) w.kernel).emit
          (.sprintf (inh_merged_text text (offset arg tail 6))) w.kernel)
      refine ⟨_ ++ new, ?_, InhShape_append _ _ hpre.1 (by simp [installs]) hs⟩
      simp [inh_directive, inh_build_raised, cap_get_proc, cap_dup, cap_set_flag_null,
        h0, hd, ht, hm, ho, hov, hnew]
    · exact ⟨_, by
        simp [inh_directive, inh_build_raised, cap_get_proc, cap_dup, cap_set_flag_null,
          h0, hd, ht, hm, ho, hov], hpre⟩

/-- C8 (as the code behaves, on every input): the `--inh` directive never sets
SETPCAP in a duplicate, issues at most one install, and what it installs is a
state the decoder returned; the duplicate raised for SETPCAP is never
installed, whether or not duplicating succeeded. -/
theorem inh_never_installs_raised (env : Env) (arg : CStr) (tail : Mem) (w : World) :
    Event.setFlag CAP_SETPCAP true ∉
      (inh_directive env arg tail w).1.events.drop w.events.length
    ∧ (installs ((inh_directive env arg tail w).1.events.drop w.events.length)).length ≤ 1
    ∧ ∀ s ∈ installs ((inh_directive env arg tail w).1.events.drop w.events.length),
        ∃ t, Event.fromText t (some s) ∈
          (inh_directive env arg tail w).1.events.drop w.events.length := by
  obtain ⟨new, hnew, h⟩ := inh_events_shape env arg tail w
  rw [hnew, List.drop_left]
  exact h

/-- C8 (at the failing input): duplicating the current state succeeds, and the
log of the directive has no `cap_set_flag` call and a single install, that of
the decoded state: line 99 takes the branch that discards the duplicate exactly
when duplicating succeeded. -/
theorem inh_raised_skipped_example :
    (inh_directive envCodec "--inh=cap_setpcap,cap_net_raw".toList [] wInh).1.events =
      [.getProc (some ⟨∅, {0, 8, 13}, {0, 8}⟩), .dup (some ⟨∅, {0, 8, 13}, {0, 8}⟩),
       .toText (some ⟨∅, {0, 8, 13}, {0, 8}⟩)
         (some "= cap_chown+ip cap_setpcap+ip cap_net_raw+p".toList),
       .malloc 70 true,
       .sprintf
         "= cap_chown+ip cap_setpcap+ip cap_net_raw+p all-i cap_setpcap,cap_net_raw+i".toList,
       .fromText
         "= cap_chown+ip cap_setpcap+ip cap_net_raw+p all-i cap_setpcap,cap_net_raw+i".toList
         (some ⟨∅, {0, 8, 13}, {8, 13}⟩),
       .setProc ⟨∅, {0, 8, 13}, {8, 13}⟩ true] := by
  decide

/-! ## C9: the dispatch on the argument -/

/-- C9, the part the code satisfies: an argument whose first four characters
are neither `--dr` nor `--in`, that does not start with `--chroot=` and is
neither `--print` nor `--`, gets the usage message and nothing else, and the
process exits with status 0 for `--help` and 1 otherwise. -/
theorem usage_for_other_arguments (env : Env) (argv0 p : Nat) (rest : List Nat) (mem : Mem)
    (w : World)
    (h1 : memcmp_eq "--drop=" (cstr mem p) 4 = false)
    (h2 : memcmp_eq "--inh=" (cstr mem p) 4 = false)
    (h3 : memcmp_eq "--chroot=" (cstr mem p) 9 = false)
    (h4 : strcmp_eq "--print" (cstr mem p) = false)
    (h5 : strcmp_eq "--" (cstr mem p) = false) :
    main_loop env argv0 (p :: rest) mem w =
      (w.emit (.stdout usage [.str (cstr mem argv0), .str (cstr mem argv0)]) w.kernel,
        .exited (if strcmp_eq "--help" (cstr mem p) then 0 else 1)) := by
  simp [main_loop, h1, h2, h3, h4, h5]

/-- C9 (at the failing input): the argument `--drop:cap_net_raw` is none of the
recognized directives, yet the program prints no usage message, runs the
`--drop` operation on `cap_net_raw`, removes NET_RAW from the bounding set and
exits with status 0: line 33 compares only the first four bytes. -/
theorem misspelt_drop_is_executed :
    (main envOk ["capsh".toList, "--drop:cap_net_raw".toList] [] w0).2 = .exited 0
    ∧ (main envOk ["capsh".toList, "--drop:cap_net_raw".toList] [] w0).1.kernel.bset
        = {0, 18, 8}
    ∧ (main envOk ["capsh".toList, "--drop:cap_net_raw".toList] [] w0).1.events =
        [.getProc (some ⟨∅, {8, 13, 18}, ∅⟩), .dup (some ⟨∅, {8, 13, 18}, ∅⟩),
         .setFlag 8 true, .fromName "cap_net_raw".toList (some 13),
         .setProc ⟨{8}, {8, 13, 18}, ∅⟩ true, .bsetDrop 13 true,
         .setProc ⟨∅, {8, 13, 18}, ∅⟩ true] := by
  decide

/-- C9 (a second failing input): `--info` is no directive either; the program
enters the `--inh` operation and reads the capability state instead of
printing the usage message. -/
theorem misspelt_inh_is_executed :
    (main envOk ["capsh".toList, "--info".toList] [] w0).1.events =
      [.getProc (some ⟨∅, {8, 13, 18}, ∅⟩), .dup (some ⟨∅, {8, 13, 18}, ∅⟩),
       .toText (some ⟨∅, {8, 13, 18}, ∅⟩) none,
       .perror "Fatal error concerning process capabilities"]
    ∧ (main envOk ["capsh".toList, "--info".toList] [] w0).2 = .exited 1 := by
  decide

/-- C9 (a third failing input): `--drop` without `=` is shorter than the seven
bytes line 60 skips, so the names are read from the next argument:
`capsh --drop cap_net_raw,cap_chown` drops NET_RAW and CHOWN; `strtok` has cut
the next argument at its comma, and the loop then meets `cap_net_raw`, prints
the usage message (the last event of the log) and exits with status 1. -/
theorem drop_without_equals_reads_next_argument :
    (main envOk ["capsh".toList, "--drop".toList, "cap_net_raw,cap_chown".toList] []
        w0).1.kernel.bset = {18, 8}
    ∧ (main envOk ["capsh".toList, "--drop".toList, "cap_net_raw,cap_chown".toList] []
        w0).1.events.dropLast =
        [.getProc (some ⟨∅, {8, 13, 18}, ∅⟩), .dup (some ⟨∅, {8, 13, 18}, ∅⟩),
         .setFlag 8 true, .fromName "cap_net_raw".toList (some 13),
         .setProc ⟨{8}, {8, 13, 18}, ∅⟩ true, .bsetDrop 13 true,
         .setProc ⟨∅, {8, 13, 18}, ∅⟩ true, .fromName "cap_chown".toList (some 0),
         .setProc ⟨{8}, {8, 13, 18}, ∅⟩ true, .bsetDrop 0 true,
         .setProc ⟨∅, {8, 13, 18}, ∅⟩ true]
    ∧ (main envOk ["capsh".toList, "--drop".toList, "cap_net_raw,cap_chown".toList] []
        w0).2 = .exited 1
    ∧ cstr (strtok_mem
        (layout ["capsh".toList, "--drop".toList, "cap_net_raw,cap_chown".toList]) 13) 13
        = "cap_net_raw".toList := by
  decide

end Capsh
